import Mathlib

/-!
Verification development for the SQL-analyst core of the squeel repository:
the query validator, the executor's result normalization, the chart-data
extractor, and the sentinel-marker serialization of chart data.

The TypeScript source is shallowly embedded:
* JavaScript primitive values are `JsVal`; host behaviour that the code
  invokes on strings (`Number(string)`, `new Date(string)`, number
  formatting) is collected in a `JsEnv` parameter, since it is supplied by
  the JavaScript runtime, not by the repository.
* JavaScript numbers are rationals, with `none : Option ℚ` playing NaN.
* Row objects are association lists in key order; a missing key reads as
  `undefined`, as in JavaScript.
-/

/-- JavaScript primitive values as they occur in SQL result rows. -/
inductive JsVal where
  | vUndef : JsVal
  | vNull : JsVal
  | vBool : Bool → JsVal
  | vNum : Option ℚ → JsVal
  | vStr : String → JsVal
deriving DecidableEq

/-- Host (JavaScript runtime) behaviour the embedded code calls on strings:
`Number(s)` (`none` = NaN), validity of `new Date(s)`, and `String(n)` for
numbers.  The repository's code is parametric in these. -/
structure JsEnv where
  parseNumber : String → Option ℚ
  parseDate : String → Bool
  numToStr : ℚ → String

/-- JavaScript truthiness of a primitive value. -/
def truthy : JsVal → Bool
  | .vUndef => false
  | .vNull => false
  | .vBool b => b
  | .vNum none => false
  | .vNum (some q) => decide (q ≠ 0)
  | .vStr s => decide (s ≠ "")

/-- `Number(v)` for a primitive value (`none` = NaN). -/
def jsToNumber (env : JsEnv) : JsVal → Option ℚ
  | .vUndef => none
  | .vNull => some 0
  | .vBool b => some (if b then 1 else 0)
  | .vNum n => n
  | .vStr s => env.parseNumber s

/-- `String(v)` for a primitive value. -/
def jsToString (env : JsEnv) : JsVal → String
  | .vUndef => ("undefined")
  | .vNull => ("null")
  | .vBool b => if b then ("true") else ("false")
  | .vNum none => ("NaN")
  | .vNum (some q) => env.numToStr q
  | .vStr s => s

/-- Whether `new Date(v)` yields a valid date.  A finite number is a valid
millisecond timestamp iff its magnitude is at most 8.64e15 (ECMAScript time
range); booleans coerce to 0/1; strings are decided by the host parser. -/
def newDateValid (env : JsEnv) : JsVal → Bool
  | .vUndef => false
  | .vNull => true
  | .vBool _ => true
  | .vNum none => false
  | .vNum (some q) => decide (|q| ≤ 8640000000000000)
  | .vStr s => env.parseDate s

/-! ### String utilities used by the validator (`query.trim().toLowerCase()`,
`startsWith`, `includes`) -/

/-- Drop leading and trailing whitespace of a character list. -/
def trimList (l : List Char) : List Char :=
  ((l.dropWhile Char.isWhitespace).reverse.dropWhile Char.isWhitespace).reverse

/-- `query.trim().toLowerCase()` (ASCII lowering, which covers the SQL
keywords the validator inspects). -/
def jsLowerTrim (q : String) : String :=
  String.mk ((trimList q.data).map Char.toLower)

/-- `s.startsWith(pre)`. -/
def jsStartsWith (s pre : String) : Bool :=
  pre.data.isPrefixOf s.data

/-- Does `needle` occur as a contiguous sublist of the haystack? -/
def isSubList (needle : List Char) : List Char → Bool
  | [] => needle.isEmpty
  | c :: rest => needle.isPrefixOf (c :: rest) || isSubList needle rest

/-- `s.includes(sub)`. -/
def jsIncludes (s sub : String) : Bool := isSubList sub.data s.data

theorem isPrefixOf_exists (l₁ l₂ : List Char) :
    l₁.isPrefixOf l₂ = true ↔ ∃ t, l₂ = l₁ ++ t := by
  rw [ List.isPrefixOf_iff_prefix]
  constructor
  · rintro ⟨t, ht⟩; exact ⟨t, ht.symm⟩
  · rintro ⟨t, ht⟩; exact ⟨t, ht.symm⟩

theorem isSubList_exists (n h : List Char) :
    isSubList n h = true ↔ ∃ a b, h = a ++ n ++ b := by
  induction h with
  | nil =>
    simp only [isSubList, List.isEmpty_iff]
    constructor
    · rintro rfl; exact ⟨[], [], rfl⟩
    · rintro ⟨a, b, hab⟩
      rcases List.append_eq_nil.mp hab.symm with ⟨h1, h2⟩
      exact (List.append_eq_nil.mp h1).2
  | cons c rest ih =>
    simp only [isSubList, Bool.or_eq_true, ih, isPrefixOf_exists]
    constructor
    · rintro (⟨t, ht⟩ | ⟨a, b, hab⟩)
      · exact ⟨[], t, by simpa using ht⟩
      · exact ⟨c :: a, b, by simp [hab]⟩
    · rintro ⟨a, b, hab⟩
      cases a with
      | nil => exact Or.inl ⟨b, by simpa using hab⟩
      | cons x xs =>
        refine Or.inr ⟨xs, b, ?_⟩
        have := hab
        simp only [List.cons_append] at this
        exact (List.cons.injEq _ _ _ _ ▸ this).2

/-! ### The query validator (`validateQuery`, part_006 lines 59-88) -/

/-- `{ isValid: boolean; error?: string }`. -/
structure ValidationResult where
  isValid : Bool
  error : Option String
deriving DecidableEq

/-- A single-quote character, used in the dangerous-keyword error message. -/
def quoteCh : String := String.singleton (Char.ofNat 39)

/-- The fixed denylist checked by the validator, in source order. -/
def dangerousKeywords : List String :=
  ["drop", "delete", "insert", "update", "alter", "truncate",
   "create", "grant", "revoke", "exec", "execute", "call",
   "declare", "merge", "replace", "rename", "comment"]

/-- The SQL validator: only SELECT statements and CTEs pass, CTEs must
contain a SELECT, and any denylisted keyword occurring anywhere in the
trimmed lowercased text causes rejection (first keyword in list order
names the error). -/
def validateQuery (query : String) : ValidationResult :=
  let trimmedQuery := jsLowerTrim query
  if !(jsStartsWith trimmedQuery ("select")) && !(jsStartsWith trimmedQuery ("with")) then
    ⟨false, some ("Only SELECT queries and CTEs (WITH statements) are allowed")⟩
  else if jsStartsWith trimmedQuery ("with") && !(jsIncludes trimmedQuery ("select")) then
    ⟨false, some ("WITH statements must contain a SELECT query")⟩
  else
    match dangerousKeywords.find? (fun keyword => jsIncludes trimmedQuery keyword) with
    | some keyword =>
        ⟨false, some ("Dangerous keyword " ++ quoteCh ++ keyword ++ quoteCh ++ " is not allowed")⟩
    | none => ⟨true, none⟩

theorem startsWith_select_not_with (s : String)
    (h : jsStartsWith s ("select") = true) : jsStartsWith s ("with") = false := by
  rcases (isPrefixOf_exists _ _).mp h with ⟨t, ht⟩
  by_contra hw
  rw [Bool.not_eq_false] at hw
  rcases (isPrefixOf_exists _ _).mp hw with ⟨u, hu⟩
  rw [ht] at hu
  simp at hu

/-- Claim C8: a query whose trimmed, lowercased form starts with `with` but
does not contain the substring `select` anywhere is rejected with the
CTE-specific error message. -/
theorem validateQuery_cte_missing_select (q : String)
    (hw : jsStartsWith (jsLowerTrim q) ("with") = true)
    (hs : jsIncludes (jsLowerTrim q) ("select") = false) :
    validateQuery q = ⟨false, some ("WITH statements must contain a SELECT query")⟩ := by
  unfold validateQuery
  simp [hw, hs]

/-- Witness for C8 at the concrete query `"WITH x"`. -/
theorem validateQuery_cte_missing_select_witness :
    validateQuery ("WITH x") = ⟨false, some ("WITH statements must contain a SELECT query")⟩ :=
  validateQuery_cte_missing_select ("WITH x") (by decide) (by decide)

/-- Claim C3 counterexample: `validateQuery("DROP TABLE accounts")` is
rejected by the earlier statement-type check, so its error message is the
generic one and does not mention the keyword `drop` (the claim asserts the
error names the keyword). -/
theorem validateQuery_drop_error_does_not_name_keyword :
    validateQuery ("DROP TABLE accounts")
        = ⟨false, some ("Only SELECT queries and CTEs (WITH statements) are allowed")⟩
      ∧ jsIncludes (jsLowerTrim ("Only SELECT queries and CTEs (WITH statements) are allowed"))
          ("drop") = false := by
  constructor
  · decide
  · decide

/-- Claim C3 amended: any query containing a denylisted keyword (in its
trimmed lowercased form) is rejected; the error names a denylisted keyword
that occurs (the first in denylist order) whenever the query starts with
`select` — but a query that fails the statement-type or CTE check is
rejected with that earlier message instead, which does not name the
keyword. -/
theorem validateQuery_dangerous_keyword (q kw : String)
    (hk : kw ∈ dangerousKeywords)
    (hin : jsIncludes (jsLowerTrim q) kw = true) :
    (validateQuery q).isValid = false ∧
    (jsStartsWith (jsLowerTrim q) ("select") = true →
      ∃ kw0, kw0 ∈ dangerousKeywords ∧ jsIncludes (jsLowerTrim q) kw0 = true ∧
        (validateQuery q).error
          = some ("Dangerous keyword " ++ quoteCh ++ kw0 ++ quoteCh ++ " is not allowed")) := by
  have hfind : (dangerousKeywords.find? (fun k => jsIncludes (jsLowerTrim q) k)).isSome := by
    rw [List.find?_isSome]
    exact ⟨kw, hk, hin⟩
  rcases Option.isSome_iff_exists.mp hfind with ⟨kw0, hkw0⟩
  have hkw0mem : kw0 ∈ dangerousKeywords := List.mem_of_find?_eq_some hkw0
  have hkw0p : jsIncludes (jsLowerTrim q) kw0 = true := List.find?_some hkw0
  by_cases h1 : (!(jsStartsWith (jsLowerTrim q) ("select"))
      && !(jsStartsWith (jsLowerTrim q) ("with"))) = true
  · refine ⟨?_, ?_⟩
    · unfold validateQuery
      simp [h1]
    · intro hsel
      rw [hsel] at h1
      simp at h1
  · by_cases h2 : (jsStartsWith (jsLowerTrim q) ("with")
        && !(jsIncludes (jsLowerTrim q) ("select"))) = true
    · refine ⟨?_, ?_⟩
      · unfold validateQuery
        simp only [Bool.not_eq_true] at h1
        simp [h1, h2]
      · intro hsel
        have hnw := startsWith_select_not_with _ hsel
        rw [hnw] at h2
        simp at h2
    · have hval : validateQuery q
          = ⟨false, some ("Dangerous keyword " ++ quoteCh ++ kw0 ++ quoteCh ++ " is not allowed")⟩ := by
        unfold validateQuery
        simp only [Bool.not_eq_true] at h1 h2
        simp [h1, h2, hkw0]
      exact ⟨by rw [hval], fun _ => ⟨kw0, hkw0mem, hkw0p, by rw [hval]⟩⟩

/-- Witness for the amended C3 at `"SELECT dropoff FROM trips"`: rejected,
and the error names `drop`. -/
theorem validateQuery_dangerous_keyword_witness :
    (validateQuery ("SELECT dropoff FROM trips")).isValid = false ∧
    ∃ kw0, kw0 ∈ dangerousKeywords ∧
      jsIncludes (jsLowerTrim ("SELECT dropoff FROM trips")) kw0 = true ∧
      (validateQuery ("SELECT dropoff FROM trips")).error
        = some ("Dangerous keyword " ++ quoteCh ++ kw0 ++ quoteCh ++ " is not allowed") :=
  ⟨(validateQuery_dangerous_keyword ("SELECT dropoff FROM trips") ("drop")
      (by decide) (by decide)).1,
   (validateQuery_dangerous_keyword ("SELECT dropoff FROM trips") ("drop")
      (by decide) (by decide)).2 (by decide)⟩

/-! ### Query results and chart data (part_006 lines 17-35) -/

/-- A result row: column name/value pairs in JavaScript object key order.
Keys of actual JavaScript objects are distinct; `getField` reads the first
binding, which coincides with property lookup on such rows. -/
abbrev Row : Type := List (String × JsVal)

/-- `row[field]`: a missing key reads as `undefined`. -/
def getField (row : Row) (k : String) : JsVal :=
  match row.find? (fun p => p.1 == k) with
  | some p => p.2
  | none => (.vUndef)

/-- `QueryResult` of the executor. -/
structure QueryResult where
  rows : List Row
  fields : List String
  rowCount : Nat
  executionTime : Nat

/-- The chart type union `'bar' | 'line' | 'pie' | 'area'`. -/
inductive ChartType where
  | bar : ChartType
  | line : ChartType
  | pie : ChartType
  | area : ChartType
deriving DecidableEq

/-- One entry of `ChartData.data` (`none` as a value would be NaN; the
extractor never produces it). -/
structure ChartPoint where
  label : String
  value : Option ℚ
deriving DecidableEq

/-- `ChartData`, fields in the order the source's object literals create
them (which is also their `JSON.stringify` order). -/
structure ChartData where
  type : ChartType
  title : String
  xAxis : Option String
  yAxis : Option String
  description : Option String
  data : List ChartPoint
deriving DecidableEq

/-! ### The chart extractor (`extractChartData`, part_006 lines 199-404) -/

/-- `typeof val === 'number' || !isNaN(Number(val))` (note NaN itself has
`typeof` number, so it satisfies the first disjunct). -/
def isNumericVal (env : JsEnv) (v : JsVal) : Bool :=
  (match v with | .vNum _ => true | _ => false) || (jsToNumber env v).isSome

/-- `values.every(val => typeof val === 'number' || !isNaN(Number(val)))`. -/
def isNumericColumn (env : JsEnv) (rows : List Row) (f : String) : Bool :=
  (rows.map (fun r => getField r f)).all (fun v => isNumericVal env v)

/-- The body of the time-field test: `if (!val) return false; return
!isNaN(new Date(val).getTime())`. -/
def isTimeVal (env : JsEnv) (v : JsVal) : Bool :=
  truthy v && newDateValid env v

/-- `values.some(val => ...)` for the time-field test. -/
def isTimeColumn (env : JsEnv) (rows : List Row) (f : String) : Bool :=
  (rows.map (fun r => getField r f)).any (fun v => isTimeVal env v)

/-- `String(row[labelField] || '')`. -/
def labelOf (env : JsEnv) (v : JsVal) : String :=
  if truthy v then jsToString env v else ""

/-- JavaScript truthiness of a number (`none` = NaN). -/
def numTruthy : Option ℚ → Bool
  | none => false
  | some q => decide (q ≠ 0)

/-- JavaScript `a || b` on numbers. -/
def jsOr (a b : Option ℚ) : Option ℚ := if numTruthy a then a else b

/-- `Number(row[valueField]) || 0`. -/
def valueOf (env : JsEnv) (v : JsVal) : Option ℚ :=
  jsOr (jsToNumber env v) (some 0)

/-- Pattern 2's per-row value:
`numericFields.reduce((sum, field) => sum + (Number(row[field]) || 0), 0)`. -/
def rowSum (env : JsEnv) (row : Row) (fs : List String) : ℚ :=
  fs.foldl (fun s f => s + (valueOf env (getField row f)).getD 0) 0

/-- The chart literal of Pattern 1 (lines 249-259): fields are
type, title, xAxis, yAxis, description, data. -/
def twoColChart (env : JsEnv) (rows : List Row) (labelField valueField : String) : ChartData :=
  ⟨.bar,
   valueField ++ " by " ++ labelField,
   some labelField,
   some valueField,
   some ("Distribution of " ++ valueField ++ " across different " ++ labelField ++ " values"),
   rows.map (fun row =>
     ⟨labelOf env (getField row labelField), valueOf env (getField row valueField)⟩)⟩

/-- Pattern 1 — two columns, exactly one of them numeric (lines 223-267). -/
def pattern1Charts (env : JsEnv) (rows : List Row) (fieldNames : List String) : List ChartData :=
  match fieldNames with
  | [field1, field2] =>
    let field1IsNumeric := isNumericColumn env rows field1
    let field2IsNumeric := isNumericColumn env rows field2
    if !field1IsNumeric && field2IsNumeric then
      [twoColChart env rows field1 field2]
    else if field1IsNumeric && !field2IsNumeric then
      [twoColChart env rows field2 field1]
    else []
  | _ => []

/-- The chart literal of Pattern 2 (lines 289-299). -/
def multiSeriesChart (env : JsEnv) (rows : List Row)
    (labelField : String) (numericFields : List String) : ChartData :=
  ⟨.bar,
   "Multi-series Analysis by " ++ labelField,
   some labelField,
   some ("Values"),
   some ("Comparison of " ++ String.intercalate (", ") numericFields ++ " across " ++ labelField),
   rows.map (fun row =>
     ⟨labelOf env (getField row labelField), some (rowSum env row numericFields)⟩)⟩

/-- Pattern 2 — more than one numeric column and exactly one non-numeric
column; the numeric series are collapsed into one sum per row (lines
269-302). -/
def pattern2Charts (env : JsEnv) (rows : List Row) (fieldNames : List String) : List ChartData :=
  let numericFields := fieldNames.filter (fun f => isNumericColumn env rows f)
  let nonNumericFields := fieldNames.filter (fun f => !(numericFields.contains f))
  if numericFields.length > 1 && nonNumericFields.length == 1 then
    match nonNumericFields with
    | labelField :: _ => [multiSeriesChart env rows labelField numericFields]
    | [] => []
  else []

/-- The chart literal of Pattern 3 (lines 326-336). -/
def timeSeriesChart (env : JsEnv) (rows : List Row)
    (timeField valueField : String) : ChartData :=
  ⟨.line,
   valueField ++ " Over Time",
   some timeField,
   some valueField,
   some ("Time series analysis of " ++ valueField),
   rows.map (fun row =>
     ⟨labelOf env (getField row timeField), valueOf env (getField row valueField)⟩)⟩

/-- Pattern 3 — first time field against first numeric field (lines
304-339). -/
def pattern3Charts (env : JsEnv) (rows : List Row) (fieldNames : List String) : List ChartData :=
  let numericFields := fieldNames.filter (fun f => isNumericColumn env rows f)
  let timeFields := fieldNames.filter (fun f => isTimeColumn env rows f)
  match timeFields, numericFields with
  | timeField :: _, valueField :: _ => [timeSeriesChart env rows timeField valueField]
  | _, _ => []

/-- JavaScript truthiness of the fallback scan's slots (`null` initially;
note a field named `""` would be falsy and scanned past, as in the
source). -/
def strSlotTruthy : Option String → Bool
  | none => false
  | some s => decide (s ≠ "")

/-- One iteration of the fallback scan (lines 354-365): fill the numeric
slot with the first numeric field, the label slot with the first
non-numeric field.  The source's early `break` once both slots are filled
does not change the result, since a filled (truthy) slot is never
overwritten. -/
def fallbackStep (env : JsEnv) (rows : List Row)
    (acc : Option String × Option String) (f : String) : Option String × Option String :=
  let isNumeric := isNumericColumn env rows f
  if isNumeric && !(strSlotTruthy acc.1) then (some f, acc.2)
  else if !isNumeric && !(strSlotTruthy acc.2) then (acc.1, some f)
  else acc

/-- The fallback chart over the first 20 rows (lines 371-381). -/
def fallbackChart (env : JsEnv) (rows : List Row)
    (numericField labelField : String) : ChartData :=
  ⟨.bar,
   "Data Analysis: " ++ numericField ++ " by " ++ labelField,
   some labelField,
   some numericField,
   some ("Analysis of " ++ numericField ++ " across different " ++ labelField ++ " values"),
   (rows.take 20).map (fun row =>
     ⟨labelOf env (getField row labelField), valueOf env (getField row numericField)⟩)⟩

/-- The numeric-only fallback chart over row positions (lines 387-397). -/
def rowIndexChart (env : JsEnv) (rows : List Row) (numericField : String) : ChartData :=
  ⟨.bar,
   numericField ++ " Distribution",
   some ("Row"),
   some numericField,
   some ("Distribution of " ++ numericField ++ " values"),
   ((rows.take 20).enum).map (fun p =>
     ⟨"Row " ++ toString (p.1 + 1), valueOf env (getField p.2 numericField)⟩)⟩

/-- The fallback rule (lines 347-401), minus its `charts.length === 0 &&
rows.length > 0` guard, which `extractChartData` applies. -/
def fallbackCharts (env : JsEnv) (rows : List Row) (fieldNames : List String) : List ChartData :=
  if fieldNames.length ≥ 2 then
    let scan := fieldNames.foldl (fallbackStep env rows) (none, none)
    if strSlotTruthy scan.1 && strSlotTruthy scan.2 then
      match scan.1, scan.2 with
      | some numericField, some labelField => [fallbackChart env rows numericField labelField]
      | _, _ => []
    else if strSlotTruthy scan.1 then
      match scan.1 with
      | some numericField => [rowIndexChart env rows numericField]
      | none => []
    else []
  else []

/-- `extractChartData` (lines 199-404): on empty rows return `[]`; else
apply Patterns 1-3 in order over the first row's key order, concatenating
their charts, and run the fallback only when no pattern produced a chart. -/
def extractChartData (env : JsEnv) (results : QueryResult) : List ChartData :=
  match results.rows with
  | [] => []
  | firstRow :: _ =>
    let rows := results.rows
    let fieldNames := firstRow.map (fun p => p.1)
    let charts := pattern1Charts env rows fieldNames
      ++ pattern2Charts env rows fieldNames
      ++ pattern3Charts env rows fieldNames
    if charts.length == 0 then charts ++ fallbackCharts env rows fieldNames
    else charts

/-! ### Structural lemmas about the extractor -/

theorem valueOf_isSome (env : JsEnv) (v : JsVal) : (valueOf env v).isSome = true := by
  unfold valueOf jsOr
  rcases h : jsToNumber env v with _ | q
  · simp [numTruthy]
  · by_cases hq : q = 0 <;> simp [numTruthy, hq]

theorem valueOf_vNum_some (env : JsEnv) (q : ℚ) :
    valueOf env (.vNum (some q)) = some q := by
  unfold valueOf jsOr jsToNumber numTruthy
  by_cases hq : q = 0 <;> simp [hq]

theorem valueOf_vNum_getD (env : JsEnv) (q : ℚ) :
    (valueOf env (.vNum (some q))).getD 0 = q := by
  rw [valueOf_vNum_some]
  rfl

theorem labelOf_vStr (env : JsEnv) (s : String) : labelOf env (.vStr s) = s := by
  unfold labelOf truthy jsToString
  by_cases hs : s = "" <;> simp [hs]

theorem isNumericVal_vNum (env : JsEnv) (n : Option ℚ) :
    isNumericVal env (.vNum n) = true := rfl

theorem pattern1Charts_shape (env : JsEnv) (rows : List Row) (fns : List String)
    (c : ChartData) (hc : c ∈ pattern1Charts env rows fns) :
    ∃ lf vf, c = twoColChart env rows lf vf := by
  rcases fns with _ | ⟨f1, _ | ⟨f2, _ | ⟨f3, r⟩⟩⟩
  · simp [pattern1Charts] at hc
  · simp [pattern1Charts] at hc
  · unfold pattern1Charts at hc
    dsimp only at hc
    split at hc
    · exact ⟨f1, f2, by simpa using hc⟩
    · split at hc
      · exact ⟨f2, f1, by simpa using hc⟩
      · simp at hc
  · simp [pattern1Charts] at hc

theorem pattern2Charts_shape (env : JsEnv) (rows : List Row) (fns : List String)
    (c : ChartData) (hc : c ∈ pattern2Charts env rows fns) :
    ∃ lf nfs, c = multiSeriesChart env rows lf nfs := by
  unfold pattern2Charts at hc
  dsimp only at hc
  split at hc
  · split at hc
    · exact ⟨_, _, by simpa using hc⟩
    · simp at hc
  · simp at hc

theorem pattern3Charts_shape (env : JsEnv) (rows : List Row) (fns : List String)
    (c : ChartData) (hc : c ∈ pattern3Charts env rows fns) :
    ∃ tf vf, c = timeSeriesChart env rows tf vf := by
  unfold pattern3Charts at hc
  dsimp only at hc
  split at hc
  · exact ⟨_, _, by simpa using hc⟩
  · simp at hc

theorem fallbackCharts_shape (env : JsEnv) (rows : List Row) (fns : List String)
    (c : ChartData) (hc : c ∈ fallbackCharts env rows fns) :
    (∃ nf lf, c = fallbackChart env rows nf lf) ∨ ∃ nf, c = rowIndexChart env rows nf := by
  unfold fallbackCharts at hc
  dsimp only at hc
  split at hc
  · split at hc
    · split at hc
      · exact Or.inl ⟨_, _, by simpa using hc⟩
      · simp at hc
    · split at hc
      · split at hc
        · exact Or.inr ⟨_, by simpa using hc⟩
        · simp at hc
      · simp at hc
  · simp at hc

theorem pattern1Charts_length_le (env : JsEnv) (rows : List Row) (fns : List String) :
    (pattern1Charts env rows fns).length ≤ 1 := by
  unfold pattern1Charts
  rcases fns with _ | ⟨f1, _ | ⟨f2, _ | ⟨f3, r⟩⟩⟩ <;> dsimp only <;> try simp
  split
  · simp
  · split <;> simp

theorem pattern2Charts_length_le (env : JsEnv) (rows : List Row) (fns : List String) :
    (pattern2Charts env rows fns).length ≤ 1 := by
  unfold pattern2Charts
  dsimp only
  split
  · split <;> simp
  · simp

theorem pattern3Charts_length_le (env : JsEnv) (rows : List Row) (fns : List String) :
    (pattern3Charts env rows fns).length ≤ 1 := by
  unfold pattern3Charts
  dsimp only
  split <;> simp

theorem fallbackCharts_length_le (env : JsEnv) (rows : List Row) (fns : List String) :
    (fallbackCharts env rows fns).length ≤ 1 := by
  unfold fallbackCharts
  dsimp only
  split
  · split
    · split <;> simp
    · split
      · split <;> simp
      · simp
  · simp

theorem extractChartData_mem (env : JsEnv) (res : QueryResult) (c : ChartData)
    (hc : c ∈ extractChartData env res) :
    ∃ fns, c ∈ pattern1Charts env res.rows fns ∨ c ∈ pattern2Charts env res.rows fns
      ∨ c ∈ pattern3Charts env res.rows fns ∨ c ∈ fallbackCharts env res.rows fns := by
  unfold extractChartData at hc
  split at hc
  · simp at hc
  · dsimp only at hc
    split at hc
    · rcases List.mem_append.mp hc with h | h
      · rcases List.mem_append.mp h with h1 | h1
        · rcases List.mem_append.mp h1 with h2 | h2
          · exact ⟨_, Or.inl h2⟩
          · exact ⟨_, Or.inr (Or.inl h2)⟩
        · exact ⟨_, Or.inr (Or.inr (Or.inl h1))⟩
      · exact ⟨_, Or.inr (Or.inr (Or.inr h))⟩
    · rcases List.mem_append.mp hc with h | h
      · rcases List.mem_append.mp h with h1 | h1
        · exact ⟨_, Or.inl h1⟩
        · exact ⟨_, Or.inr (Or.inl h1)⟩
      · exact ⟨_, Or.inr (Or.inr (Or.inl h))⟩

theorem twoColChart_point (env : JsEnv) (rows : List Row) (lf vf : String)
    (p : ChartPoint) (hp : p ∈ (twoColChart env rows lf vf).data) :
    p.value.isSome = true := by
  simp only [twoColChart, List.mem_map] at hp
  obtain ⟨row, -, rfl⟩ := hp
  exact valueOf_isSome env _

theorem multiSeriesChart_point (env : JsEnv) (rows : List Row) (lf : String)
    (nfs : List String) (p : ChartPoint) (hp : p ∈ (multiSeriesChart env rows lf nfs).data) :
    p.value.isSome = true := by
  simp only [multiSeriesChart, List.mem_map] at hp
  obtain ⟨row, -, rfl⟩ := hp
  rfl

theorem timeSeriesChart_point (env : JsEnv) (rows : List Row) (tf vf : String)
    (p : ChartPoint) (hp : p ∈ (timeSeriesChart env rows tf vf).data) :
    p.value.isSome = true := by
  simp only [timeSeriesChart, List.mem_map] at hp
  obtain ⟨row, -, rfl⟩ := hp
  exact valueOf_isSome env _

theorem fallbackChart_point (env : JsEnv) (rows : List Row) (nf lf : String)
    (p : ChartPoint) (hp : p ∈ (fallbackChart env rows nf lf).data) :
    p.value.isSome = true := by
  simp only [fallbackChart, List.mem_map] at hp
  obtain ⟨row, -, rfl⟩ := hp
  exact valueOf_isSome env _

theorem rowIndexChart_point (env : JsEnv) (rows : List Row) (nf : String)
    (p : ChartPoint) (hp : p ∈ (rowIndexChart env rows nf).data) :
    p.value.isSome = true := by
  simp only [rowIndexChart, List.mem_map] at hp
  obtain ⟨ir, -, rfl⟩ := hp
  exact valueOf_isSome env _

/-- Claim C9: the extractor is total — it is defined as a plain function on
every `QueryResult`, however malformed the rows (missing keys read as
`undefined`, any primitive value is allowed), so it cannot raise — it
returns `[]` whenever `rows` is empty regardless of the declared fields,
and it never returns more than three charts. -/
theorem extractChartData_total (env : JsEnv) (res : QueryResult) :
    (res.rows = [] → extractChartData env res = []) ∧
    (extractChartData env res).length ≤ 3 := by
  constructor
  · intro h
    unfold extractChartData
    rw [h]
  · unfold extractChartData
    split
    · simp
    · rename_i firstRow tail heq
      dsimp only
      have h1 := pattern1Charts_length_le env res.rows (firstRow.map (fun p => p.1))
      have h2 := pattern2Charts_length_le env res.rows (firstRow.map (fun p => p.1))
      have h3 := pattern3Charts_length_le env res.rows (firstRow.map (fun p => p.1))
      have h4 := fallbackCharts_length_le env res.rows (firstRow.map (fun p => p.1))
      split
      · rename_i hlen
        simp only [beq_iff_eq, List.length_append] at hlen ⊢
        omega
      · simp only [List.length_append]
        omega

/-- A fixed host environment used in concrete witnesses/counterexamples.
It matches the JavaScript runtime at every string it is applied to there:
the account names below are neither numeric-parseable (`Number` gives NaN)
nor date-parseable (`new Date` is invalid). -/
def envW : JsEnv := ⟨fun _ => none, fun _ => false, fun _ => ("")⟩

/-- Witness for C9: a result with zero rows but a nonempty field list and an
inconsistent row count still yields no charts. -/
theorem extractChartData_total_witness :
    extractChartData envW ⟨[], [("month"), ("revenue")], 7, 0⟩ = []
      ∧ (extractChartData envW ⟨[], [("month"), ("revenue")], 7, 0⟩).length ≤ 3 :=
  ⟨(extractChartData_total envW ⟨[], [("month"), ("revenue")], 7, 0⟩).1 rfl,
   (extractChartData_total envW ⟨[], [("month"), ("revenue")], 7, 0⟩).2⟩

/-- Claim C5: with `rowCount = rows.length`, every chart of the two-column
rule (Pattern 1) and of the time-series rule (Pattern 3) has exactly
`rowCount` data points, and every fallback-rule chart has exactly
`min(rowCount, 20)` data points. -/
theorem chartRule_data_lengths (env : JsEnv) (res : QueryResult) (fns : List String)
    (h : res.rowCount = res.rows.length) :
    (∀ c ∈ pattern1Charts env res.rows fns, c.data.length = res.rowCount) ∧
    (∀ c ∈ pattern3Charts env res.rows fns, c.data.length = res.rowCount) ∧
    (∀ c ∈ fallbackCharts env res.rows fns, c.data.length = min res.rowCount 20) := by
  refine ⟨?_, ?_, ?_⟩
  · intro c hc
    obtain ⟨lf, vf, rfl⟩ := pattern1Charts_shape env res.rows fns c hc
    simp [twoColChart, h]
  · intro c hc
    obtain ⟨tf, vf, rfl⟩ := pattern3Charts_shape env res.rows fns c hc
    simp [timeSeriesChart, h]
  · intro c hc
    rcases fallbackCharts_shape env res.rows fns c hc with ⟨nf, lf, rfl⟩ | ⟨nf, rfl⟩
    · simp [fallbackChart, h, Nat.min_comm]
    · simp [rowIndexChart, h, Nat.min_comm]

/-- A row builder for two-column account/balance results (used by C1 and
the C5 witness). -/
def accountRow (x : String × ℚ) : Row :=
  [(("account_name"), JsVal.vStr x.1), (("balance"), JsVal.vNum (some x.2))]

/-- Three concrete account rows. -/
def rsW : List (String × ℚ) := [(("Checking"), 1000), (("Savings"), 2500), (("Credit"), 300)]

/-- The concrete `QueryResult` built from `rsW`. -/
def resW : QueryResult := ⟨rsW.map accountRow, [("account_name"), ("balance")], 3, 5⟩

/-- Witness for C5: on the three-row account/balance result, the Pattern-1
chart carries exactly `rowCount = 3` data points. -/
theorem chartRule_data_lengths_witness :
    (twoColChart envW resW.rows ("account_name") ("balance")).data.length = resW.rowCount :=
  (chartRule_data_lengths envW resW [("account_name"), ("balance")] rfl).1
    (twoColChart envW resW.rows ("account_name") ("balance")) (by decide)

/-- Claim C10: every data point of every chart the extractor returns has a
(string) label and a number value that is never NaN; the label coercion
sends `null` and `undefined` row values to the empty string, and the value
coercion sends anything that does not coerce to a truthy number to 0. -/
theorem chart_point_invariants (env : JsEnv) (res : QueryResult) :
    (∀ c ∈ extractChartData env res, ∀ p ∈ c.data, p.value.isSome = true) ∧
    labelOf env .vNull = "" ∧ labelOf env .vUndef = "" ∧
    (∀ v, jsToNumber env v = none ∨ jsToNumber env v = some 0 → valueOf env v = some 0) := by
  refine ⟨?_, rfl, rfl, ?_⟩
  · intro c hc p hp
    obtain ⟨fns, h | h | h | h⟩ := extractChartData_mem env res c hc
    · obtain ⟨lf, vf, rfl⟩ := pattern1Charts_shape env res.rows fns c h
      exact twoColChart_point env res.rows lf vf p hp
    · obtain ⟨lf, nfs, rfl⟩ := pattern2Charts_shape env res.rows fns c h
      exact multiSeriesChart_point env res.rows lf nfs p hp
    · obtain ⟨tf, vf, rfl⟩ := pattern3Charts_shape env res.rows fns c h
      exact timeSeriesChart_point env res.rows tf vf p hp
    · rcases fallbackCharts_shape env res.rows fns c h with ⟨nf, lf, rfl⟩ | ⟨nf, rfl⟩
      · exact fallbackChart_point env res.rows nf lf p hp
      · exact rowIndexChart_point env res.rows nf p hp
  · intro v hv
    unfold valueOf jsOr
    rcases hv with hv | hv <;> rw [hv] <;> simp [numTruthy]

/-- Witness for C10 on the concrete account/balance result: the first point
of the first chart has a non-NaN value, and the coercions behave as stated
on `null`. -/
theorem chart_point_invariants_witness :
    (⟨("Checking"), some 1000⟩ : ChartPoint).value.isSome = true
      ∧ valueOf envW (JsVal.vNum none) = some 0 :=
  ⟨(chart_point_invariants envW resW).1
      (twoColChart envW resW.rows ("account_name") ("balance")) (by decide)
      ⟨("Checking"), some 1000⟩ (by decide),
   (chart_point_invariants envW resW).2.2.2 (JsVal.vNum none) (Or.inl rfl)⟩

/-! ### Claim C4: the Pattern-2 sum collapse -/

/-- A row builder for month/revenue/cost results. -/
def monthRow (x : JsVal × ℚ × ℚ) : Row :=
  [(("month"), x.1), (("revenue"), JsVal.vNum (some x.2.1)), (("cost"), JsVal.vNum (some x.2.2))]

theorem getField_monthRow_month (x : JsVal × ℚ × ℚ) :
    getField (monthRow x) ("month") = x.1 := rfl

theorem getField_monthRow_revenue (x : JsVal × ℚ × ℚ) :
    getField (monthRow x) ("revenue") = JsVal.vNum (some x.2.1) := rfl

theorem getField_monthRow_cost (x : JsVal × ℚ × ℚ) :
    getField (monthRow x) ("cost") = JsVal.vNum (some x.2.2) := rfl

theorem isNumericColumn_monthRow_month (env : JsEnv) (rs : List (JsVal × ℚ × ℚ))
    (x0 : JsVal × ℚ × ℚ) (h0 : x0 ∈ rs) (hm : isNumericVal env x0.1 = false) :
    isNumericColumn env (rs.map monthRow) ("month") = false := by
  unfold isNumericColumn
  rw [List.map_map, Bool.eq_false_iff]
  intro hall
  rw [List.all_eq_true] at hall
  have h := hall _ (List.mem_map_of_mem _ h0)
  rw [Function.comp_apply, getField_monthRow_month] at h
  rw [hm] at h
  exact Bool.false_ne_true h

theorem isNumericColumn_monthRow_revenue (env : JsEnv) (rs : List (JsVal × ℚ × ℚ)) :
    isNumericColumn env (rs.map monthRow) ("revenue") = true := by
  unfold isNumericColumn
  rw [List.map_map, List.all_eq_true]
  intro b hb
  obtain ⟨x, -, rfl⟩ := List.mem_map.mp hb
  rfl

theorem isNumericColumn_monthRow_cost (env : JsEnv) (rs : List (JsVal × ℚ × ℚ)) :
    isNumericColumn env (rs.map monthRow) ("cost") = true := by
  unfold isNumericColumn
  rw [List.map_map, List.all_eq_true]
  intro b hb
  obtain ⟨x, -, rfl⟩ := List.mem_map.mp hb
  rfl

theorem pattern2Charts_monthRow (env : JsEnv) (rs : List (JsVal × ℚ × ℚ))
    (x0 : JsVal × ℚ × ℚ) (h0 : x0 ∈ rs) (hm : isNumericVal env x0.1 = false) :
    pattern2Charts env (rs.map monthRow) [("month"), ("revenue"), ("cost")]
      = [multiSeriesChart env (rs.map monthRow) ("month") [("revenue"), ("cost")]] := by
  unfold pattern2Charts
  dsimp only
  rw [show List.filter (fun f => isNumericColumn env (rs.map monthRow) f)
        [("month"), ("revenue"), ("cost")] = [("revenue"), ("cost")] by
    simp [List.filter, isNumericColumn_monthRow_month env rs x0 h0 hm,
      isNumericColumn_monthRow_revenue, isNumericColumn_monthRow_cost]]
  simp +decide [List.filter]

/-- Claim C4: on rows with exactly the fields month (non-numeric), revenue
and cost (both number-valued), the extractor returns a chart whose i-th
value is `revenue[i] + cost[i]` — Pattern 2 collapses the two numeric
series into one summed value per label. -/
theorem extractChartData_sums_numeric_columns (env : JsEnv)
    (rs : List (JsVal × ℚ × ℚ)) (fields : List String) (n t : Nat)
    (hne : rs ≠ [])
    (hm : ∀ x ∈ rs, isNumericVal env x.1 = false) :
    ∃ c ∈ extractChartData env ⟨rs.map monthRow, fields, n, t⟩,
      c.data = rs.map (fun x => ⟨labelOf env x.1, some (x.2.1 + x.2.2)⟩) := by
  rcases rs with _ | ⟨x0, rest⟩
  · exact absurd rfl hne
  have h0 : x0 ∈ x0 :: rest := by simp
  have hp2 := pattern2Charts_monthRow env (x0 :: rest) x0 h0 (hm x0 h0)
  refine ⟨multiSeriesChart env ((x0 :: rest).map monthRow) ("month") [("revenue"), ("cost")],
    ?_, ?_⟩
  · unfold extractChartData
    dsimp only [List.map] at hp2 ⊢
    rw [hp2]
    split
    · rename_i hlen
      simp only [beq_iff_eq, List.length_append, List.length_cons, List.length_nil] at hlen
      exfalso
      omega
    · exact List.mem_append.mpr (Or.inl (List.mem_append.mpr (Or.inr (by simp))))
  · simp only [multiSeriesChart, List.map_map]
    refine List.map_congr_left ?_
    intro x _
    simp only [Function.comp_apply, getField_monthRow_month, rowSum, List.foldl_cons,
      List.foldl_nil, getField_monthRow_revenue, getField_monthRow_cost, valueOf_vNum_getD,
      zero_add]

/-- Witness rows for C4: two months with non-numeric labels. -/
def rsMonths : List (JsVal × ℚ × ℚ) :=
  [(JsVal.vStr ("Jan"), 10, 4), (JsVal.vStr ("Feb"), 7, 5)]

/-- Witness for C4 at two concrete rows: some returned chart sums revenue
and cost per row. -/
theorem extractChartData_sums_numeric_columns_witness :
    ∃ c ∈ extractChartData envW ⟨rsMonths.map monthRow, [("month"), ("revenue"), ("cost")], 2, 1⟩,
      c.data = rsMonths.map (fun x => ⟨labelOf envW x.1, some (x.2.1 + x.2.2)⟩) :=
  extractChartData_sums_numeric_columns envW rsMonths [("month"), ("revenue"), ("cost")] 2 1
    (by decide) (by decide)

/-! ### Claim C1: the two-column account/balance case -/

theorem getField_accountRow_name (x : String × ℚ) :
    getField (accountRow x) ("account_name") = JsVal.vStr x.1 := rfl

theorem getField_accountRow_balance (x : String × ℚ) :
    getField (accountRow x) ("balance") = JsVal.vNum (some x.2) := rfl

theorem isNumericColumn_accountRow_name (env : JsEnv) (rs : List (String × ℚ))
    (x0 : String × ℚ) (h0 : x0 ∈ rs) (hnp0 : env.parseNumber x0.1 = none) :
    isNumericColumn env (rs.map accountRow) ("account_name") = false := by
  unfold isNumericColumn
  rw [List.map_map, Bool.eq_false_iff]
  intro hall
  rw [List.all_eq_true] at hall
  have h := hall _ (List.mem_map_of_mem _ h0)
  rw [Function.comp_apply, getField_accountRow_name] at h
  simp [isNumericVal, jsToNumber, hnp0] at h

theorem isNumericColumn_accountRow_balance (env : JsEnv) (rs : List (String × ℚ)) :
    isNumericColumn env (rs.map accountRow) ("balance") = true := by
  unfold isNumericColumn
  rw [List.map_map, List.all_eq_true]
  intro b hb
  obtain ⟨x, -, rfl⟩ := List.mem_map.mp hb
  rfl

theorem isTimeColumn_accountRow_name (env : JsEnv) (rs : List (String × ℚ))
    (hnd : ∀ x ∈ rs, env.parseDate x.1 = false) :
    isTimeColumn env (rs.map accountRow) ("account_name") = false := by
  unfold isTimeColumn
  rw [List.map_map, List.any_eq_false]
  intro v hv
  obtain ⟨x, hx, rfl⟩ := List.mem_map.mp hv
  simp only [Function.comp_apply, getField_accountRow_name]
  simp [isTimeVal, newDateValid, hnd x hx]

theorem isTimeColumn_accountRow_balance (env : JsEnv) (rs : List (String × ℚ)) :
    isTimeColumn env (rs.map accountRow) ("balance")
      = rs.any (fun x => isTimeVal env (.vNum (some x.2))) := by
  unfold isTimeColumn
  induction rs with
  | nil => rfl
  | cons x xs ih =>
    simp only [List.map_cons, List.any_cons] at ih ⊢
    rw [ih]
    rfl

theorem numericFields_accountRow (env : JsEnv) (rs : List (String × ℚ))
    (x0 : String × ℚ) (h0 : x0 ∈ rs) (hnp0 : env.parseNumber x0.1 = none) :
    List.filter (fun f => isNumericColumn env (rs.map accountRow) f)
      [("account_name"), ("balance")] = [("balance")] := by
  simp [List.filter, isNumericColumn_accountRow_name env rs x0 h0 hnp0,
    isNumericColumn_accountRow_balance]

theorem pattern1Charts_accountRow (env : JsEnv) (rs : List (String × ℚ))
    (x0 : String × ℚ) (h0 : x0 ∈ rs) (hnp0 : env.parseNumber x0.1 = none) :
    pattern1Charts env (rs.map accountRow) [("account_name"), ("balance")]
      = [twoColChart env (rs.map accountRow) ("account_name") ("balance")] := by
  unfold pattern1Charts
  dsimp only
  rw [isNumericColumn_accountRow_name env rs x0 h0 hnp0, isNumericColumn_accountRow_balance]
  simp

theorem pattern2Charts_accountRow (env : JsEnv) (rs : List (String × ℚ))
    (x0 : String × ℚ) (h0 : x0 ∈ rs) (hnp0 : env.parseNumber x0.1 = none) :
    pattern2Charts env (rs.map accountRow) [("account_name"), ("balance")] = [] := by
  unfold pattern2Charts
  dsimp only
  rw [numericFields_accountRow env rs x0 h0 hnp0]
  simp

theorem pattern3Charts_accountRow (env : JsEnv) (rs : List (String × ℚ))
    (x0 : String × ℚ) (h0 : x0 ∈ rs) (hnp0 : env.parseNumber x0.1 = none)
    (hnd : ∀ x ∈ rs, env.parseDate x.1 = false) :
    pattern3Charts env (rs.map accountRow) [("account_name"), ("balance")]
      = if rs.any (fun x => isTimeVal env (.vNum (some x.2)))
        then [timeSeriesChart env (rs.map accountRow) ("balance") ("balance")] else [] := by
  unfold pattern3Charts
  dsimp only
  rw [numericFields_accountRow env rs x0 h0 hnp0]
  rw [List.filter_cons, List.filter_cons, List.filter_nil,
    isTimeColumn_accountRow_name env rs hnd, isTimeColumn_accountRow_balance]
  by_cases hc : rs.any (fun x => isTimeVal env (.vNum (some x.2))) = true <;>
    simp [hc]

/-- Claim C1 amended: on a three-row result whose rows have exactly the
fields account_name (a string that is not numeric-parseable) and balance
(number-valued), the extractor's FIRST chart is the Pattern-1 bar chart
with xAxis account_name, yAxis balance and one data point per input row in
order — but it is the ONLY chart exactly when no balance value is a truthy
valid ECMAScript timestamp: since `new Date(number)` is valid for any
in-range number, any nonzero balance makes Pattern 3 fire too and append a
second (line) chart, so the result is not a single chart in general (the
account names are additionally assumed not to be date-parseable, which
real account names are not). -/
theorem extractChartData_two_column (env : JsEnv) (rs : List (String × ℚ))
    (fields : List String) (n t : Nat)
    (h3 : rs.length = 3)
    (hnp : ∀ x ∈ rs, env.parseNumber x.1 = none)
    (hnd : ∀ x ∈ rs, env.parseDate x.1 = false) :
    extractChartData env ⟨rs.map accountRow, fields, n, t⟩
      = twoColChart env (rs.map accountRow) ("account_name") ("balance")
        :: (if rs.any (fun x => isTimeVal env (.vNum (some x.2)))
            then [timeSeriesChart env (rs.map accountRow) ("balance") ("balance")] else [])
    ∧ (twoColChart env (rs.map accountRow) ("account_name") ("balance")).data
        = rs.map (fun x => ⟨x.1, some x.2⟩) := by
  rcases rs with _ | ⟨x0, rest⟩
  · simp at h3
  have h0 : x0 ∈ x0 :: rest := by simp
  have hp1 := pattern1Charts_accountRow env (x0 :: rest) x0 h0 (hnp x0 h0)
  have hp2 := pattern2Charts_accountRow env (x0 :: rest) x0 h0 (hnp x0 h0)
  have hp3 := pattern3Charts_accountRow env (x0 :: rest) x0 h0 (hnp x0 h0) hnd
  constructor
  · unfold extractChartData
    dsimp only [List.map] at hp1 hp2 hp3 ⊢
    rw [hp1, hp2, hp3]
    by_cases hc : (x0 :: rest).any (fun x => isTimeVal env (.vNum (some x.2))) = true <;>
      simp [hc]
  · simp only [twoColChart, List.map_map]
    refine List.map_congr_left ?_
    intro x _
    simp only [Function.comp_apply, getField_accountRow_name, getField_accountRow_balance,
      labelOf_vStr, valueOf_vNum_some]

/-- Witness for the amended C1 at the concrete three-account result. -/
theorem extractChartData_two_column_witness :
    extractChartData envW ⟨rsW.map accountRow, [("account_name"), ("balance")], 3, 5⟩
      = twoColChart envW (rsW.map accountRow) ("account_name") ("balance")
        :: (if rsW.any (fun x => isTimeVal envW (.vNum (some x.2)))
            then [timeSeriesChart envW (rsW.map accountRow) ("balance") ("balance")] else [])
    ∧ (twoColChart envW (rsW.map accountRow) ("account_name") ("balance")).data
        = rsW.map (fun x => ⟨x.1, some x.2⟩) :=
  extractChartData_two_column envW rsW [("account_name"), ("balance")] 3 5
    (by decide) (by decide) (by decide)

/-- Claim C1 counterexample: on the three-row account/balance result `resW`
(all balances nonzero), the extractor returns TWO charts — the Pattern-1
bar chart and a Pattern-3 line chart — not exactly one, because every
nonzero number is a valid `new Date` argument.  `envW` matches JavaScript
on the strings involved: `Number("Checking")` is NaN and
`new Date("Checking")` is invalid. -/
theorem extractChartData_two_column_not_single :
    (extractChartData envW resW).length = 2 ∧
    (extractChartData envW resW).map (fun c => c.type) = [ChartType.bar, ChartType.line] := by
  constructor <;> decide

/-! ### Claim C2: the executor's result-shape normalization (part_006
lines 120-154) -/

/-- A driver-level JavaScript value: primitive, array, or plain object. -/
inductive DriverVal where
  | prim : JsVal → DriverVal
  | arr : List DriverVal → DriverVal
  | obj : List (String × DriverVal) → DriverVal

/-- JavaScript truthiness of a driver value (all objects are truthy). -/
def dTruthy : DriverVal → Bool
  | .prim v => truthy v
  | .arr _ => true
  | .obj _ => true

/-- `typeof v === 'object'` (true for arrays, plain objects and `null`). -/
def dIsObjectType : DriverVal → Bool
  | .prim .vNull => true
  | .prim _ => false
  | .arr _ => true
  | .obj _ => true

/-- `Array.isArray(v)`. -/
def dIsArray : DriverVal → Bool
  | .arr _ => true
  | _ => false

/-- The elements of an array value (only read under an `isArray` guard). -/
def dElems : DriverVal → List DriverVal
  | .arr es => es
  | _ => []

/-- Property access `v[k]` (`none` = undefined; primitives and arrays carry
no named properties in this model). -/
def getProp : DriverVal → String → Option DriverVal
  | .obj fs, k => (fs.find? (fun p => p.1 == k)).map (fun p => p.2)
  | _, _ => none

/-- Truthiness of a possibly-undefined property. -/
def optTruthy : Option DriverVal → Bool
  | none => false
  | some v => dTruthy v

/-- `Array.isArray` of a possibly-undefined property. -/
def optIsArray : Option DriverVal → Bool
  | some (.arr _) => true
  | _ => false

/-- Elements of a possibly-undefined array property. -/
def optElems : Option DriverVal → List DriverVal
  | some (.arr es) => es
  | _ => []

/-- Lines 120-136: unwrap the driver result into a row list — the result
itself when it is an array, else `result.data` when that is an array, else
`result.rows` when that is an array, else `[]`; non-objects give `[]`. -/
def normalizeRows (result : DriverVal) : List DriverVal :=
  if dTruthy result && dIsObjectType result then
    if dIsArray result then dElems result
    else if optTruthy (getProp result ("data")) && optIsArray (getProp result ("data")) then
      optElems (getProp result ("data"))
    else if optTruthy (getProp result ("rows")) && optIsArray (getProp result ("rows")) then
      optElems (getProp result ("rows"))
    else []
  else []

/-- `rowCount: rows.length` (line 152). -/
def normalizeRowCount (result : DriverVal) : Nat := (normalizeRows result).length

/-- `Object.keys` on a row value; on `null`/`undefined` it throws a
TypeError in JavaScript, numbers and booleans have no enumerable keys, and
strings and arrays enumerate index strings. -/
def objKeys : DriverVal → Except String (List String)
  | .prim .vNull => .error ("TypeError")
  | .prim .vUndef => .error ("TypeError")
  | .prim (.vStr s) => .ok ((List.range s.length).map (fun i => toString i))
  | .prim _ => .ok []
  | .arr es => .ok ((List.range es.length).map (fun i => toString i))
  | .obj fs => .ok (fs.map (fun p => p.1))

/-- Line 145: `rows.length > 0 ? Object.keys(rows[0]).map(...) : []` —
field records carry just the key name. -/
def normalizeFields (rows : List DriverVal) : Except String (List String) :=
  match rows with
  | [] => .ok []
  | r :: _ => objKeys r

/-- Claim C2: the normalization unwraps the three driver shapes in order —
the result itself when it is an array, `result.data` when that is an
array, otherwise `result.rows` when that is an array — and yields `[]` for
every other shape (it is a total function, so it cannot throw); `rowCount`
equals `rows.length`; `fields` is `[]` on no rows and the first row's key
order when the first row is an object. -/
theorem executor_normalization (result : DriverVal) :
    (∀ es, result = .arr es → normalizeRows result = es) ∧
    (∀ es, dIsArray result = false → getProp result ("data") = some (.arr es) →
      normalizeRows result = es) ∧
    (∀ es, dIsArray result = false → optIsArray (getProp result ("data")) = false →
      getProp result ("rows") = some (.arr es) → normalizeRows result = es) ∧
    (dIsArray result = false → optIsArray (getProp result ("data")) = false →
      optIsArray (getProp result ("rows")) = false → normalizeRows result = []) ∧
    normalizeRowCount result = (normalizeRows result).length ∧
    (normalizeRows result = [] → normalizeFields (normalizeRows result) = .ok []) ∧
    (∀ fs rest, normalizeRows result = .obj fs :: rest →
      normalizeFields (normalizeRows result) = .ok (fs.map (fun p => p.1))) := by
  refine ⟨?_, ?_, ?_, ?_, rfl, ?_, ?_⟩
  · rintro es rfl
    rfl
  · intro es hna hd
    rcases result with p | es' | fs
    · simp [getProp] at hd
    · simp [dIsArray] at hna
    · simp [normalizeRows, hd, dTruthy, dIsObjectType, dIsArray, optTruthy, optIsArray, optElems]
  · intro es hna hd hr
    rcases result with p | es' | fs
    · simp [getProp] at hr
    · simp [dIsArray] at hna
    · simp only [normalizeRows, hr, dTruthy, dIsObjectType, dIsArray, Bool.true_and,
        Bool.false_and, if_false, hd, Bool.and_false, if_true]
      simp [optTruthy, dTruthy, optIsArray, optElems]
  · intro hna hd hr
    rcases result with p | es' | fs
    · rcases p with _ | _ | b | n | s <;> simp [normalizeRows, dTruthy, dIsObjectType, truthy]
    · simp [dIsArray] at hna
    · simp [normalizeRows, dTruthy, dIsObjectType, dIsArray, hd, hr]
  · intro h
    rw [h]
    rfl
  · intro fs rest h
    rw [h]
    rfl

/-- A concrete driver result of the `{rows: [...]}` shape. -/
def driverResW : DriverVal :=
  DriverVal.obj
    [(("command"), DriverVal.prim (JsVal.vStr ("SELECT"))),
     (("rows"), DriverVal.arr [DriverVal.obj [(("a"), DriverVal.prim (JsVal.vNum (some 1)))]])]

/-- Witness for C2: the `{rows: [...]}` shape is unwrapped, and fields come
from the first row's key order. -/
theorem executor_normalization_witness :
    normalizeRows driverResW = [DriverVal.obj [(("a"), DriverVal.prim (JsVal.vNum (some 1)))]]
      ∧ normalizeFields (normalizeRows driverResW) = .ok [("a")] := by
  have h3 := (executor_normalization driverResW).2.2.1
      [DriverVal.obj [(("a"), DriverVal.prim (JsVal.vNum (some 1)))]] rfl rfl rfl
  have h7 := (executor_normalization driverResW).2.2.2.2.2.2
      [(("a"), DriverVal.prim (JsVal.vNum (some 1)))] [] h3
  exact ⟨h3, h7⟩

/-! ### Claim C7: connection release in `executeSafeQuery` (lines 91-159) -/

/-- Connection lifecycle events of one `executeSafeQuery` call. -/
inductive ExecEvent where
  | acquire : ExecEvent
  | release : ExecEvent
deriving DecidableEq

/-- The outcome of the `Promise.race` between the query and the 30-second
timer: the driver resolves with a result, the timer fires first, or the
driver rejects. -/
inductive RaceOutcome where
  | success : DriverVal → RaceOutcome
  | timeout : RaceOutcome
  | driverError : String → RaceOutcome

/-- The executor's normalized result record. -/
structure QueryResultD where
  rows : List DriverVal
  fields : List String
  rowCount : Nat
  executionTime : Nat

/-- The `try` block (lines 99-154) relative to the race outcome: on driver
success, normalize, read the fields (`Object.keys` of the first row, which
can itself throw on a null row) and `await sql.end()` before returning; a
timeout or driver rejection aborts the block before its `sql.end()`. -/
def tryBlock (outcome : RaceOutcome) (t : Nat) :
    List ExecEvent × Except String QueryResultD :=
  match outcome with
  | .success result =>
    match normalizeFields (normalizeRows result) with
    | .ok fs =>
        ([ExecEvent.release], .ok ⟨normalizeRows result, fs, normalizeRowCount result, t⟩)
    | .error e => ([], .error e)
  | .timeout => ([], .error ("Query timeout: execution exceeded 30 seconds"))
  | .driverError m => ([], .error m)

/-- `executeSafeQuery` as a connection-event trace: validation runs before
the connection is created (line 92 before line 97); afterwards the
`try/catch` releases the connection on the success path (line 147) and in
the catch handler (line 156), which rethrows the failure wrapped as
`Query execution failed: ...`. -/
def executeSafeQueryTrace (query : String) (outcome : RaceOutcome) (t : Nat) :
    List ExecEvent × Except String QueryResultD :=
  match validateQuery query with
  | ⟨false, err⟩ => ([], .error (err.getD ("")))
  | ⟨true, _⟩ =>
    let body := tryBlock outcome t
    match body.2 with
    | .ok r => (ExecEvent.acquire :: body.1, .ok r)
    | .error m => (ExecEvent.acquire :: (body.1 ++ [ExecEvent.release]),
        .error ("Query execution failed: " ++ m))

/-- Claim C7: whenever a call to `executeSafeQuery` acquires a connection,
the trace releases it exactly once after the acquisition — on successful
completion, on timeout, and on driver error alike. -/
theorem connection_released_once (query : String) (outcome : RaceOutcome) (t : Nat)
    (h : ExecEvent.acquire ∈ (executeSafeQueryTrace query outcome t).1) :
    ∃ rest, (executeSafeQueryTrace query outcome t).1 = ExecEvent.acquire :: rest
      ∧ rest.count ExecEvent.release = 1 := by
  unfold executeSafeQueryTrace at h ⊢
  split at h
  · simp at h
  · rcases outcome with result | _ | m
    · dsimp only [tryBlock] at h ⊢
      rcases hf : normalizeFields (normalizeRows result) with e | fs <;>
        simp [hf, List.count_cons, List.count_nil]
    · simp [tryBlock, List.count_cons, List.count_nil]
    · simp [tryBlock, List.count_cons, List.count_nil]

/-- Witness for C7: a valid query hitting the 30-second timeout acquires
and then releases exactly once. -/
theorem connection_released_once_witness :
    ∃ rest, (executeSafeQueryTrace ("SELECT 1") RaceOutcome.timeout 0).1
        = ExecEvent.acquire :: rest
      ∧ rest.count ExecEvent.release = 1 :=
  connection_released_once ("SELECT 1") RaceOutcome.timeout 0 (by decide)

/-! ### Claim C6: the sentinel-marker serialization of chart data

The analyst agent appends `\n\nCHART_DATA_START<json>CHART_DATA_END` to its
prose output (part_006 line 640); the document handler streams
`__CHART_DATA_START__<json>__CHART_DATA_END__` (part_001 line 158); the
client extracts with the regex `__CHART_DATA_START__(.*?)__CHART_DATA_END__`
(src/artifacts/text/client.tsx lines 95-110), i.e. it takes the text
between the first start marker and the first end marker after it, and
`JSON.parse`s it. -/

/-- Split a character list at the first occurrence of `pat`: the part
before it and the part after it. -/
def splitFirst (pat : List Char) : List Char → Option (List Char × List Char)
  | [] => if pat.isEmpty then some ([], []) else none
  | c :: rest =>
    if pat.isPrefixOf (c :: rest) then some ([], (c :: rest).drop pat.length)
    else
      match splitFirst pat rest with
      | some (x, y) => some (c :: x, y)
      | none => none

/-- The number of (possibly overlapping) occurrences of `pat`. -/
def countSub (pat : List Char) : List Char → Nat
  | [] => if pat.isEmpty then 1 else 0
  | c :: rest => (if pat.isPrefixOf (c :: rest) then 1 else 0) + countSub pat rest

/-- Occurrence counting on strings. -/
def countSubStr (pat s : String) : Nat := countSub pat.data s.data

/-- The extraction the client's non-greedy regex performs: the text between
the first start marker and the first end marker following it. -/
def extractPayload (startM endM s : String) : Option String :=
  match splitFirst startM.data s.data with
  | none => none
  | some (_, tail) =>
    match splitFirst endM.data tail with
    | none => none
    | some (content, _) => some (String.mk content)

/-- The sentinel-marker encoding shape shared by both repository encoders:
marker-wrapped payload appended to prose. -/
def encodeWithMarkers (startM endM prose payload : String) : String :=
  prose ++ startM ++ payload ++ endM

/-- The analyst agent's encoder (part_006 line 640). -/
def analystAppendChartData (text payload : String) : String :=
  text ++ "\n\nCHART_DATA_START" ++ payload ++ "CHART_DATA_END"

/-- The marker pair of the document handler's encoder and of the client
decoder. -/
def streamStartMarker : String := "__CHART_DATA_START__"

/-- End marker of the document handler's encoder and the client decoder. -/
def streamEndMarker : String := "__CHART_DATA_END__"

/-- The client's chart-data extraction from a streamed text. -/
def clientExtractChartData (s : String) : Option String :=
  extractPayload streamStartMarker streamEndMarker s

theorem ne_empty_data (s : String) (h : s ≠ "") : s.data ≠ [] := by
  intro hd
  apply h
  cases s with
  | mk l =>
    simp only [String.data] at hd
    subst hd
    rfl

theorem countSub_append_self (pat : List Char) (hp : pat ≠ []) (a b : List Char) :
    1 ≤ countSub pat (a ++ pat ++ b) := by
  induction a with
  | nil =>
    rcases pat with _ | ⟨p, ps⟩
    · exact absurd rfl hp
    · simp only [List.nil_append, List.cons_append]
      unfold countSub
      rw [if_pos ((isPrefixOf_exists _ _).mpr ⟨b, by simp⟩)]
      omega
  | cons x a' ih =>
    simp only [List.cons_append]
    unfold countSub
    simp only [List.cons_append] at ih
    split <;> omega

theorem splitFirst_of_countSub_one (pat : List Char) (hp : pat ≠ []) (a b : List Char)
    (h1 : countSub pat (a ++ pat ++ b) = 1) :
    splitFirst pat (a ++ pat ++ b) = some (a, b) := by
  induction a with
  | nil =>
    rcases pat with _ | ⟨p, ps⟩
    · exact absurd rfl hp
    · simp only [List.nil_append, List.cons_append]
      unfold splitFirst
      rw [if_pos ((isPrefixOf_exists _ _).mpr ⟨b, by simp⟩)]
      simp only [Option.some.injEq, Prod.mk.injEq, true_and]
      have : (p :: ps) ++ b = (p :: ps) ++ b := rfl
      calc (p :: (ps ++ b)).drop (p :: ps).length
        = ((p :: ps) ++ b).drop (p :: ps).length := by simp
      _ = b := List.drop_left _ _
  | cons x a' ih =>
    simp only [List.cons_append] at h1 ⊢
    have hnp : pat.isPrefixOf (x :: (a' ++ pat ++ b)) = false := by
      by_contra hc
      rw [Bool.not_eq_false] at hc
      have hge := countSub_append_self pat hp a' b
      unfold countSub at h1
      rw [if_pos hc] at h1
      simp only [List.cons_append] at hge
      omega
    unfold splitFirst
    rw [if_neg (by rw [hnp]; exact Bool.false_ne_true)]
    have hrec := ih (by
      unfold countSub at h1
      rw [if_neg (by rw [hnp]; exact Bool.false_ne_true)] at h1
      simpa using h1)
    simp only [List.cons_append] at hrec
    rw [hrec]

/-- When each marker occurs exactly once in the relevant region, extraction
recovers exactly the encoded payload. -/
theorem extractPayload_encode (startM endM prose payload : String)
    (hs : startM ≠ "") (he : endM ≠ "")
    (h1 : countSubStr startM (encodeWithMarkers startM endM prose payload) = 1)
    (h2 : countSubStr endM (payload ++ endM) = 1) :
    extractPayload startM endM (encodeWithMarkers startM endM prose payload)
      = some payload := by
  unfold extractPayload encodeWithMarkers
  unfold countSubStr at h1 h2
  unfold encodeWithMarkers at h1
  have hdata : (prose ++ startM ++ payload ++ endM).data
      = prose.data ++ startM.data ++ (payload.data ++ endM.data) := by
    simp only [String.data_append, List.append_assoc]
  rw [hdata] at h1 ⊢
  rw [splitFirst_of_countSub_one startM.data (ne_empty_data startM hs) prose.data
    (payload.data ++ endM.data) h1]
  have h2' : countSub endM.data (payload.data ++ endM.data ++ []) = 1 := by
    rw [List.append_nil]
    simpa only [String.data_append] using h2
  have hsp := splitFirst_of_countSub_one endM.data (ne_empty_data endM he) payload.data [] h2'
  rw [List.append_nil] at hsp
  dsimp only
  rw [hsp]

/-! ### A canonical model of `JSON.stringify`/`JSON.parse` for `ChartData[]`

`JSON.stringify` serializes the chart objects with their keys in creation
order and escapes `"`, `\` and control characters in strings;
`JSON.parse` inverts it.  The printer below reproduces the stringify
output format; the parser accepts exactly that canonical form (which is
what the decoder is applied to). -/

/-- Lower-case hex digit characters. -/
def hexChar : Nat → Char
  | 0 => '0' | 1 => '1' | 2 => '2' | 3 => '3' | 4 => '4' | 5 => '5' | 6 => '6'
  | 7 => '7' | 8 => '8' | 9 => '9' | 10 => 'a' | 11 => 'b' | 12 => 'c' | 13 => 'd'
  | 14 => 'e' | _ => 'f'

/-- `JSON.stringify`'s escaping of one string character: `\"`, `\\`, the
short escapes for backspace/tab/newline/formfeed/return, `\u00XX` for the
other control characters, and everything else verbatim. -/
def escapeChar (c : Char) : List Char :=
  if c = '"' then [('\\' : Char), ('"' : Char)]
  else if c = '\\' then [('\\' : Char), ('\\' : Char)]
  else if c = Char.ofNat 8 then [('\\' : Char), ('b' : Char)]
  else if c = Char.ofNat 9 then [('\\' : Char), ('t' : Char)]
  else if c = Char.ofNat 10 then [('\\' : Char), ('n' : Char)]
  else if c = Char.ofNat 12 then [('\\' : Char), ('f' : Char)]
  else if c = Char.ofNat 13 then [('\\' : Char), ('r' : Char)]
  else if c.toNat < 32 then
    [('\\' : Char), ('u' : Char), ('0' : Char), ('0' : Char),
     hexChar (c.toNat / 16), hexChar (c.toNat % 16)]
  else [c]

/-- Escape a whole string body. -/
def escapeList : List Char → List Char
  | [] => []
  | c :: rest => escapeChar c ++ escapeList rest

/-- Hexadecimal digit value of a character. -/
def hexVal (c : Char) : Option Nat :=
  if c.isDigit then some (c.toNat - 48)
  else if ('a' ≤ c ∧ c ≤ 'f') then some (c.toNat - 87)
  else if ('A' ≤ c ∧ c ≤ 'F') then some (c.toNat - 55)
  else none

/-- Prepend a character to a string-parse result. -/
def consFst (c : Char) : Option (List Char × List Char) → Option (List Char × List Char)
  | some (cs, r) => some (c :: cs, r)
  | none => none

/-- Parse a JSON string body up to and including its closing quote,
undoing the escapes; returns the body and the remaining input. -/
def parseStrAux : List Char → Option (List Char × List Char)
  | [] => none
  | c :: rest =>
    if c = '"' then some ([], rest)
    else if c = '\\' then
      match rest with
      | [] => none
      | e :: r2 =>
        if e = '"' then consFst '"' (parseStrAux r2)
        else if e = '\\' then consFst '\\' (parseStrAux r2)
        else if e = 'b' then consFst (Char.ofNat 8) (parseStrAux r2)
        else if e = 't' then consFst (Char.ofNat 9) (parseStrAux r2)
        else if e = 'n' then consFst (Char.ofNat 10) (parseStrAux r2)
        else if e = 'f' then consFst (Char.ofNat 12) (parseStrAux r2)
        else if e = 'r' then consFst (Char.ofNat 13) (parseStrAux r2)
        else if e = 'u' then
          match r2 with
          | h1 :: h2 :: h3 :: h4 :: r3 =>
            match hexVal h1, hexVal h2, hexVal h3, hexVal h4 with
            | some a, some b, some c2, some d =>
                consFst (Char.ofNat (((a * 16 + b) * 16 + c2) * 16 + d)) (parseStrAux r3)
            | _, _, _, _ => none
          | _ => none
        else none
    else consFst c (parseStrAux rest)

theorem hexVal_hexChar (d : Nat) (hd : d < 16) : hexVal (hexChar d) = some d := by
  interval_cases d <;> decide

theorem parseStrAux_quote (r : List Char) : parseStrAux ('"' :: r) = some ([], r) := by
  conv_lhs => rw [parseStrAux.eq_def]
  simp +decide

theorem parseStrAux_escQuote (r : List Char) :
    parseStrAux ('\\' :: '"' :: r) = consFst '"' (parseStrAux r) := by
  conv_lhs => rw [parseStrAux.eq_def]
  simp +decide

theorem parseStrAux_escBackslash (r : List Char) :
    parseStrAux ('\\' :: '\\' :: r) = consFst '\\' (parseStrAux r) := by
  conv_lhs => rw [parseStrAux.eq_def]
  simp +decide

theorem parseStrAux_escB (r : List Char) :
    parseStrAux ('\\' :: 'b' :: r) = consFst (Char.ofNat 8) (parseStrAux r) := by
  conv_lhs => rw [parseStrAux.eq_def]
  simp +decide

theorem parseStrAux_escT (r : List Char) :
    parseStrAux ('\\' :: 't' :: r) = consFst (Char.ofNat 9) (parseStrAux r) := by
  conv_lhs => rw [parseStrAux.eq_def]
  simp +decide

theorem parseStrAux_escN (r : List Char) :
    parseStrAux ('\\' :: 'n' :: r) = consFst (Char.ofNat 10) (parseStrAux r) := by
  conv_lhs => rw [parseStrAux.eq_def]
  simp +decide

theorem parseStrAux_escF (r : List Char) :
    parseStrAux ('\\' :: 'f' :: r) = consFst (Char.ofNat 12) (parseStrAux r) := by
  conv_lhs => rw [parseStrAux.eq_def]
  simp +decide

theorem parseStrAux_escR (r : List Char) :
    parseStrAux ('\\' :: 'r' :: r) = consFst (Char.ofNat 13) (parseStrAux r) := by
  conv_lhs => rw [parseStrAux.eq_def]
  simp +decide

theorem parseStrAux_unicode (a b : Nat) (ha : a < 16) (hb : b < 16) (r : List Char) :
    parseStrAux ('\\' :: 'u' :: '0' :: '0' :: hexChar a :: hexChar b :: r)
      = consFst (Char.ofNat (a * 16 + b)) (parseStrAux r) := by
  conv_lhs => rw [parseStrAux.eq_def]
  have h0 : hexVal '0' = some 0 := by decide
  simp +decide [h0, hexVal_hexChar a ha, hexVal_hexChar b hb]

theorem parseStrAux_plain (c : Char) (h1 : ¬c = '"') (h2 : ¬c = '\\') (r : List Char) :
    parseStrAux (c :: r) = consFst c (parseStrAux r) := by
  conv_lhs => rw [parseStrAux.eq_def]
  simp [h1, h2]

theorem parseStrAux_escape (s rest : List Char) :
    parseStrAux (escapeList s ++ ('"' :: rest)) = some (s, rest) := by
  induction s with
  | nil => exact parseStrAux_quote rest
  | cons c cs ih =>
    show parseStrAux ((escapeChar c ++ escapeList cs) ++ ('"' :: rest)) = some (c :: cs, rest)
    rw [List.append_assoc]
    unfold escapeChar
    by_cases h1 : c = '"'
    · rw [if_pos h1]
      subst h1
      simp only [List.cons_append, List.nil_append]
      rw [parseStrAux_escQuote, ih]
      rfl
    rw [if_neg h1]
    by_cases h2 : c = '\\'
    · rw [if_pos h2]
      subst h2
      simp only [List.cons_append, List.nil_append]
      rw [parseStrAux_escBackslash, ih]
      rfl
    rw [if_neg h2]
    by_cases h3 : c = Char.ofNat 8
    · rw [if_pos h3]
      subst h3
      simp only [List.cons_append, List.nil_append]
      rw [parseStrAux_escB, ih]
      rfl
    rw [if_neg h3]
    by_cases h4 : c = Char.ofNat 9
    · rw [if_pos h4]
      subst h4
      simp only [List.cons_append, List.nil_append]
      rw [parseStrAux_escT, ih]
      rfl
    rw [if_neg h4]
    by_cases h5 : c = Char.ofNat 10
    · rw [if_pos h5]
      subst h5
      simp only [List.cons_append, List.nil_append]
      rw [parseStrAux_escN, ih]
      rfl
    rw [if_neg h5]
    by_cases h6 : c = Char.ofNat 12
    · rw [if_pos h6]
      subst h6
      simp only [List.cons_append, List.nil_append]
      rw [parseStrAux_escF, ih]
      rfl
    rw [if_neg h6]
    by_cases h7 : c = Char.ofNat 13
    · rw [if_pos h7]
      subst h7
      simp only [List.cons_append, List.nil_append]
      rw [parseStrAux_escR, ih]
      rfl
    rw [if_neg h7]
    by_cases h8 : c.toNat < 32
    · rw [if_pos h8]
      simp only [List.cons_append, List.nil_append]
      rw [parseStrAux_unicode (c.toNat / 16) (c.toNat % 16) (by omega)
        (Nat.mod_lt _ (by omega)), ih]
      show some (Char.ofNat (c.toNat / 16 * 16 + c.toNat % 16) :: cs, rest) = _
      rw [show c.toNat / 16 * 16 + c.toNat % 16 = c.toNat from by omega]
      rw [Char.ofNat_toNat]
    · rw [if_neg h8]
      simp only [List.cons_append, List.nil_append]
      rw [parseStrAux_plain c h1 h2, ih]
      rfl

/-- Fuel-driven little-endian decimal digits; structural recursion so that
concrete serializations evaluate in the kernel. -/
def digitsF : Nat → Nat → List Nat
  | 0, _ => []
  | _ + 1, 0 => []
  | fuel + 1, n + 1 => (n + 1) % 10 :: digitsF fuel ((n + 1) / 10)

theorem digitsF_eq (fuel n : Nat) (h : n ≤ fuel) : digitsF fuel n = Nat.digits 10 n := by
  induction fuel generalizing n with
  | zero =>
    interval_cases n
    rw [Nat.digits_zero]
    rfl
  | succ fuel ih =>
    rcases n with _ | n
    · rw [Nat.digits_zero]
      rfl
    · rw [Nat.digits_def' (by omega : 1 < 10) (Nat.succ_pos n)]
      show (n + 1) % 10 :: digitsF fuel ((n + 1) / 10) = _
      rw [ih ((n + 1) / 10) (by omega)]

/-- Big-endian decimal digits of a natural number. -/
def natToChars (n : Nat) : List Char :=
  if n = 0 then [('0' : Char)] else ((digitsF n n).map hexChar).reverse

theorem natToChars_eq_digits (n : Nat) :
    natToChars n = if n = 0 then [('0' : Char)] else ((Nat.digits 10 n).map hexChar).reverse := by
  unfold natToChars
  rw [digitsF_eq n n le_rfl]

/-- Consume a maximal run of decimal digits, accumulating their value. -/
def takeDigitsAcc (acc : Nat) : List Char → Nat × List Char
  | [] => (acc, [])
  | c :: rest => if c.isDigit then takeDigitsAcc (acc * 10 + (c.toNat - 48)) rest else (acc, c :: rest)

/-- Parse a nonempty run of decimal digits. -/
def parseNat : List Char → Option (Nat × List Char)
  | [] => none
  | c :: rest => if c.isDigit then some (takeDigitsAcc (c.toNat - 48) rest) else none

/-- Whether the input starts with a decimal digit. -/
def headIsDigit : List Char → Bool
  | [] => false
  | c :: _ => c.isDigit

/-- Decimal notation of an integer, with a leading minus sign if negative. -/
def intChars (i : ℤ) : List Char :=
  if i < 0 then '-' :: natToChars (-i).toNat else natToChars i.toNat

/-- `JSON.stringify` of a chart-point value: `null` for NaN (never produced
by the extractor), and decimal notation for numbers.  Number formatting is
host behaviour; this model prints the integer part (`q.num`) and is only
used on integral rationals. -/
def printValue : Option ℚ → List Char
  | none => ("null").data
  | some q => intChars q.num

/-- Parse `null` or a (possibly negative) decimal integer. -/
def parseValue (s : List Char) : Option (Option ℚ × List Char) :=
  if ("null").data.isPrefixOf s then some (none, s.drop 4)
  else
    match s with
    | [] => none
    | c :: r =>
      if c = '-' then
        match parseNat r with
        | some (n, r2) => some (some (-(n : ℚ)), r2)
        | none => none
      else
        match parseNat (c :: r) with
        | some (n, r2) => some (some ((n : ℚ)), r2)
        | none => none

theorem hexChar_isDigit (d : Nat) (hd : d < 10) : (hexChar d).isDigit = true := by
  interval_cases d <;> decide

theorem hexChar_toNat (d : Nat) (hd : d < 10) : (hexChar d).toNat - 48 = d := by
  interval_cases d <;> decide

theorem natToChars_all_digit (n : Nat) : ∀ c ∈ natToChars n, c.isDigit = true := by
  intro c hc
  rw [natToChars_eq_digits] at hc
  split at hc
  · simp at hc
    subst hc
    rfl
  · rw [List.mem_reverse] at hc
    obtain ⟨d, hd, rfl⟩ := List.mem_map.mp hc
    exact hexChar_isDigit d (Nat.digits_lt_base (by omega) hd)

theorem natToChars_ne_nil (n : Nat) : natToChars n ≠ [] := by
  rw [natToChars_eq_digits]
  split
  · simp
  · simp only [ne_eq, List.reverse_eq_nil_iff, List.map_eq_nil_iff]
    exact Nat.digits_ne_nil_iff_ne_zero.mpr (by assumption)

theorem takeDigitsAcc_append (ds : List Char) (hds : ∀ c ∈ ds, c.isDigit = true)
    (rest : List Char) (hrest : headIsDigit rest = false) (acc : Nat) :
    takeDigitsAcc acc (ds ++ rest)
      = (ds.foldl (fun a c => a * 10 + (c.toNat - 48)) acc, rest) := by
  induction ds generalizing acc with
  | nil =>
    rcases rest with _ | ⟨c, r⟩
    · rfl
    · simp only [headIsDigit] at hrest
      simp only [List.nil_append, List.foldl_nil, takeDigitsAcc]
      rw [if_neg (by rw [hrest]; exact Bool.false_ne_true)]
  | cons d ds ih =>
    simp only [List.cons_append, List.foldl_cons, takeDigitsAcc]
    rw [if_pos (hds d (by simp))]
    exact ih (fun c hc => hds c (by simp [hc])) _

theorem foldl_digits_value (l : List Nat) (hl : ∀ d ∈ l, d < 10) :
    ((l.map hexChar).reverse.foldl (fun a c => a * 10 + (c.toNat - 48)) 0)
      = Nat.ofDigits 10 l := by
  rw [List.foldl_reverse]
  rw [List.foldr_map]
  induction l with
  | nil => rfl
  | cons d ds ih =>
    simp only [List.foldr_cons, Nat.ofDigits_cons]
    rw [ih (fun x hx => hl x (by simp [hx]))]
    rw [hexChar_toNat d (hl d (by simp))]
    ring

theorem parseNat_natToChars (n : Nat) (rest : List Char) (hrest : headIsDigit rest = false) :
    parseNat (natToChars n ++ rest) = some (n, rest) := by
  by_cases h0 : n = 0
  · subst h0
    show parseNat ('0' :: rest) = some (0, rest)
    simp only [parseNat]
    rw [if_pos (by decide)]
    rcases rest with _ | ⟨c, r⟩
    · rfl
    · simp only [headIsDigit] at hrest
      show some (takeDigitsAcc 0 (c :: r)) = _
      simp only [takeDigitsAcc]
      rw [if_neg (by rw [hrest]; exact Bool.false_ne_true)]
  · have hne := natToChars_ne_nil n
    have hdig := natToChars_all_digit n
    rcases hh : natToChars n with _ | ⟨c0, ds⟩
    · exact absurd hh hne
    have hc0 : c0.isDigit = true := by
      apply hdig
      rw [hh]
      simp
    have hds : ∀ c ∈ ds, c.isDigit = true := by
      intro c hc
      apply hdig
      rw [hh]
      simp [hc]
    show parseNat (c0 :: (ds ++ rest)) = some (n, rest)
    simp only [parseNat]
    rw [if_pos hc0]
    rw [takeDigitsAcc_append ds hds rest hrest]
    have hval : ds.foldl (fun a c => a * 10 + (c.toNat - 48)) (c0.toNat - 48) = n := by
      have h1 : (c0 :: ds).foldl (fun a c => a * 10 + (c.toNat - 48)) 0 = n := by
        rw [← hh]
        rw [natToChars_eq_digits]
        rw [if_neg h0]
        rw [foldl_digits_value (Nat.digits 10 n) (fun d hd => Nat.digits_lt_base (by omega) hd)]
        exact Nat.ofDigits_digits 10 n
      simpa using h1
    rw [hval]

theorem null_not_prefix (c : Char) (hc : c ≠ 'n') (l : List Char) :
    ("null").data.isPrefixOf (c :: l) = false := by
  show (('n' == c) && (("ull").data.isPrefixOf l)) = false
  have h : ('n' == c) = false := beq_eq_false_iff_ne.mpr (fun h => hc h.symm)
  rw [h]
  rfl

theorem parseValue_printValue_none (rest : List Char) :
    parseValue (printValue none ++ rest) = some (none, rest) := by
  show parseValue (("null").data ++ rest) = _
  unfold parseValue
  rw [if_pos ((isPrefixOf_exists _ _).mpr ⟨rest, rfl⟩)]
  rfl

theorem parseValue_printValue_int (q : ℚ) (hq : q.den = 1) (rest : List Char)
    (hrest : headIsDigit rest = false) :
    parseValue (printValue (some q) ++ rest) = some (some q, rest) := by
  show parseValue (intChars q.num ++ rest) = _
  unfold intChars
  by_cases hneg : q.num < 0
  · rw [if_pos hneg]
    simp only [List.cons_append]
    unfold parseValue
    have hnp := null_not_prefix '-' (by decide) (natToChars (-q.num).toNat ++ rest)
    rw [if_neg (by rw [hnp]; exact Bool.false_ne_true)]
    dsimp only
    rw [if_pos rfl]
    rw [parseNat_natToChars _ rest hrest]
    dsimp only
    have hcast : (((-q.num).toNat : ℕ) : ℚ) = -(q.num : ℚ) := by
      have h1 : ((-q.num).toNat : ℤ) = -q.num := Int.toNat_of_nonneg (by omega)
      exact_mod_cast congrArg (fun z : ℤ => (z : ℚ)) h1
    rw [hcast]
    rw [neg_neg]
    rw [(Rat.den_eq_one_iff q).mp hq]
  · rw [if_neg hneg]
    have hpn : parseNat (natToChars q.num.toNat ++ rest) = some (q.num.toNat, rest) :=
      parseNat_natToChars _ rest hrest
    rcases hh : natToChars q.num.toNat with _ | ⟨c0, ds⟩
    · exact absurd hh (natToChars_ne_nil _)
    have hc0 : c0.isDigit = true := natToChars_all_digit _ c0 (by rw [hh]; simp)
    rw [hh] at hpn
    simp only [List.cons_append] at hpn ⊢
    unfold parseValue
    have hnp := null_not_prefix c0 (by intro h; rw [h] at hc0; exact absurd hc0 (by decide))
      (ds ++ rest)
    rw [if_neg (by rw [hnp]; exact Bool.false_ne_true)]
    dsimp only
    rw [if_neg (by intro h; rw [h] at hc0; exact absurd hc0 (by decide))]
    rw [hpn]
    dsimp only
    have hcast : ((q.num.toNat : ℕ) : ℚ) = (q.num : ℚ) := by
      have h1 : (q.num.toNat : ℤ) = q.num := Int.toNat_of_nonneg (by omega)
      exact_mod_cast congrArg (fun z : ℤ => (z : ℚ)) h1
    rw [hcast]
    rw [(Rat.den_eq_one_iff q).mp hq]

/-- The opening brace character. -/
def openBrace : Char := Char.ofNat 123

/-- The closing brace character. -/
def closeBrace : Char := Char.ofNat 125

/-- Expect a literal prefix and return the rest of the input. -/
def expects (lit : List Char) (s : List Char) : Option (List Char) :=
  if lit.isPrefixOf s then some (s.drop lit.length) else none

theorem expects_append (lit r : List Char) : expects lit (lit ++ r) = some r := by
  unfold expects
  rw [if_pos ((isPrefixOf_exists _ _).mpr ⟨r, rfl⟩)]
  rw [List.drop_left]

theorem expects_cons (c : Char) (r : List Char) : expects [c] (c :: r) = some r := by
  have := expects_append [c] r
  simpa using this

/-- The JSON text of a chart type. -/
def chartTypeChars : ChartType → List Char
  | .bar => ("bar").data
  | .line => ("line").data
  | .pie => ("pie").data
  | .area => ("area").data

/-- Serialize one data point as `JSON.stringify` does:
`{"label":"...","value":...}`. -/
def printPoint (p : ChartPoint) : List Char :=
  [openBrace] ++ ("\"label\":\"").data ++ escapeList p.label.data ++ [('"' : Char)]
    ++ (",\"value\":").data ++ printValue p.value ++ [closeBrace]

/-- The remaining comma-separated points. -/
def printPointsRest : List ChartPoint → List Char
  | [] => []
  | p :: ps => (',' : Char) :: (printPoint p ++ printPointsRest ps)

/-- A comma-separated point list body. -/
def printPointsList : List ChartPoint → List Char
  | [] => []
  | p :: ps => printPoint p ++ printPointsRest ps

/-- An optional string-valued key: omitted (as `JSON.stringify` omits
undefined properties) or `,"<key>":"<escaped>"`. -/
def printOptStr (pre : List Char) : Option String → List Char
  | none => []
  | some s => pre ++ escapeList s.data ++ [('"' : Char)]

/-- Serialize one chart as `JSON.stringify` does, keys in creation order:
`{"type":"...","title":"...","xAxis":...,"yAxis":...,"description":...,"data":[...]}`. -/
def printChart (c : ChartData) : List Char :=
  [openBrace] ++ ("\"type\":\"").data ++ chartTypeChars c.type
    ++ ("\",\"title\":\"").data ++ escapeList c.title.data ++ [('"' : Char)]
    ++ printOptStr ((",\"xAxis\":\"").data) c.xAxis
    ++ printOptStr ((",\"yAxis\":\"").data) c.yAxis
    ++ printOptStr ((",\"description\":\"").data) c.description
    ++ (",\"data\":[").data ++ printPointsList c.data ++ [(']' : Char)] ++ [closeBrace]

/-- The remaining comma-separated charts. -/
def printChartsRest : List ChartData → List Char
  | [] => []
  | c :: cs => (',' : Char) :: (printChart c ++ printChartsRest cs)

/-- A comma-separated chart list body. -/
def printChartsList : List ChartData → List Char
  | [] => []
  | c :: cs => printChart c ++ printChartsRest cs

/-- `JSON.stringify` of a `ChartData[]`. -/
def chartListToJson (cds : List ChartData) : String :=
  String.mk ([('[' : Char)] ++ printChartsList cds ++ [(']' : Char)])

/-- Parse one `{"label":...,"value":...}` object. -/
def parsePoint (s : List Char) : Option (ChartPoint × List Char) :=
  match expects ([openBrace] ++ ("\"label\":\"").data) s with
  | none => none
  | some r1 =>
    match parseStrAux r1 with
    | none => none
    | some (lbl, r2) =>
      match expects ((",\"value\":").data) r2 with
      | none => none
      | some r3 =>
        match parseValue r3 with
        | none => none
        | some (v, r4) =>
          match expects [closeBrace] r4 with
          | none => none
          | some r5 => some (⟨String.mk lbl, v⟩, r5)

/-- Parse one or more comma-separated points (fuel-bounded). -/
def parsePointsAux : Nat → List Char → Option (List ChartPoint × List Char)
  | 0, _ => none
  | fuel + 1, s =>
    match parsePoint s with
    | none => none
    | some (p, r) =>
      match r with
      | ',' :: r2 =>
        match parsePointsAux fuel r2 with
        | some (ps, r3) => some (p :: ps, r3)
        | none => none
      | _ => some ([p], r)

/-- Does the input start with `]`? -/
def headIsCloseBracket : List Char → Bool
  | ']' :: _ => true
  | _ => false

/-- Does the input start with `,`? -/
def headIsComma : List Char → Bool
  | ',' :: _ => true
  | _ => false

/-- Parse a (possibly empty) point-list body, leaving the closing `]`. -/
def parseDataList (fuel : Nat) (s : List Char) : Option (List ChartPoint × List Char) :=
  if headIsCloseBracket s then some ([], s) else parsePointsAux fuel s

/-- Parse the chart type name together with its closing context. -/
def parseChartType (s : List Char) : Option (ChartType × List Char) :=
  if (("bar").data).isPrefixOf s then some (.bar, s.drop (("bar").data).length)
  else if (("line").data).isPrefixOf s then some (.line, s.drop (("line").data).length)
  else if (("pie").data).isPrefixOf s then some (.pie, s.drop (("pie").data).length)
  else if (("area").data).isPrefixOf s then some (.area, s.drop (("area").data).length)
  else none

/-- Parse an optional `,"<key>":"<string>"` property. -/
def parseOptStr (pre : List Char) (s : List Char) : Option (Option String × List Char) :=
  match expects pre s with
  | some r =>
    match parseStrAux r with
    | some (content, r2) => some (some (String.mk content), r2)
    | none => none
  | none => some (none, s)

/-- Parse one chart object in the canonical key order. -/
def parseChart (fuel : Nat) (s : List Char) : Option (ChartData × List Char) :=
  match expects ([openBrace] ++ ("\"type\":\"").data) s with
  | none => none
  | some r1 =>
    match parseChartType r1 with
    | none => none
    | some (ty, r2) =>
      match expects (("\",\"title\":\"").data) r2 with
      | none => none
      | some r3 =>
        match parseStrAux r3 with
        | none => none
        | some (title, r4) =>
          match parseOptStr ((",\"xAxis\":\"").data) r4 with
          | none => none
          | some (xA, r5) =>
            match parseOptStr ((",\"yAxis\":\"").data) r5 with
            | none => none
            | some (yA, r6) =>
              match parseOptStr ((",\"description\":\"").data) r6 with
              | none => none
              | some (de, r7) =>
                match expects ((",\"data\":[").data) r7 with
                | none => none
                | some r8 =>
                  match parseDataList fuel r8 with
                  | none => none
                  | some (pts, r9) =>
                    match expects ([(']' : Char)] ++ [closeBrace]) r9 with
                    | none => none
                    | some r10 => some (⟨ty, String.mk title, xA, yA, de, pts⟩, r10)

/-- Parse one or more comma-separated charts (fuel-bounded). -/
def parseChartsAux : Nat → List Char → Option (List ChartData × List Char)
  | 0, _ => none
  | fuel + 1, s =>
    match parseChart (fuel + 1) s with
    | none => none
    | some (c, r) =>
      match r with
      | ',' :: r2 =>
        match parseChartsAux fuel r2 with
        | some (cs, r3) => some (c :: cs, r3)
        | none => none
      | _ => some ([c], r)

/-- `JSON.parse` restricted to the canonical `ChartData[]` format: the
whole string must be `[...]` and nothing else. -/
def chartListFromJson (s : String) : Option (List ChartData) :=
  match s.data with
  | c :: r =>
    if c = '[' then
      if r = [(']' : Char)] then some []
      else
        match parseChartsAux r.length r with
        | some (cds, rest) => if rest = [(']' : Char)] then some cds else none
        | none => none
    else none
  | [] => none

/-- The charts the extractor builds always satisfy this: the optional
fields are present and (for the round-trip statement, where number
formatting must be invertible) the values are integral. -/
def chartSerializable (c : ChartData) : Prop :=
  c.xAxis.isSome = true ∧ c.yAxis.isSome = true ∧ c.description.isSome = true ∧
  c.data.all (fun p => (p.value.getD 0).den == 1) = true

instance : DecidablePred chartSerializable := fun c => by
  unfold chartSerializable
  infer_instance

theorem expects_nil (s : List Char) : expects [] s = some s := by
  unfold expects
  simp

theorem expects_cons_step (c : Char) (l s : List Char) :
    expects (c :: l) (c :: s) = expects l s := by
  unfold expects
  have h1 : (c :: l).isPrefixOf (c :: s) = l.isPrefixOf s := by
    show (c == c && l.isPrefixOf s) = _
    rw [beq_self_eq_true, Bool.true_and]
  rw [h1]
  by_cases h : l.isPrefixOf s = true
  · rw [if_pos h, if_pos h]
    rfl
  · rw [if_neg h, if_neg h]

theorem parsePoint_print (p : ChartPoint) (hp : ∀ q : ℚ, p.value = some q → q.den = 1)
    (rest : List Char) : parsePoint (printPoint p ++ rest) = some (p, rest) := by
  unfold parsePoint printPoint
  simp only [List.append_assoc, List.cons_append, List.nil_append]
  simp only [expects_cons_step, expects_nil]
  rw [parseStrAux_escape]
  dsimp only
  simp only [expects_cons_step, expects_nil]
  rcases hv : p.value with _ | q
  · rw [parseValue_printValue_none]
    dsimp only
    simp only [expects_cons_step, expects_nil]
    rw [← hv]
  · rw [parseValue_printValue_int q (hp q hv) _ (by rfl)]
    dsimp only
    simp only [expects_cons_step, expects_nil]
    rw [← hv]

theorem parsePointsAux_print : ∀ ps : List ChartPoint, ps ≠ [] →
    (∀ p ∈ ps, ∀ q : ℚ, p.value = some q → q.den = 1) →
    ∀ rest : List Char, headIsComma rest = false → ∀ fuel : Nat, ps.length ≤ fuel →
    parsePointsAux fuel (printPointsList ps ++ rest) = some (ps, rest) := by
  intro ps
  induction ps with
  | nil => intro hne; exact absurd rfl hne
  | cons p ps ih =>
    intro _ hp rest hrest fuel hfuel
    rcases fuel with _ | fuel
    · simp at hfuel
    show parsePointsAux (fuel + 1) ((printPoint p ++ printPointsRest ps) ++ rest) = _
    rw [List.append_assoc]
    conv_lhs => rw [parsePointsAux]
    rw [parsePoint_print p (hp p (by simp))]
    dsimp only
    rcases ps with _ | ⟨p2, ps2⟩
    · simp only [printPointsRest, List.nil_append]
      split
      · simp [headIsComma] at hrest
      · rfl
    · simp only [printPointsRest, List.cons_append]
      rw [show printPoint p2 ++ printPointsRest ps2 ++ rest
          = printPointsList (p2 :: ps2) ++ rest from rfl]
      rw [ih (by simp) (fun x hx => hp x (by simp [hx])) rest hrest fuel (by
        simp only [List.length_cons] at hfuel ⊢
        omega)]

theorem headIsCloseBracket_printPoint (p : ChartPoint) (z : List Char) :
    headIsCloseBracket (printPoint p ++ z) = false := rfl

theorem parseDataList_print (pts : List ChartPoint)
    (hp : ∀ p ∈ pts, ∀ q : ℚ, p.value = some q → q.den = 1)
    (fuel : Nat) (hfuel : pts.length ≤ fuel) (X : List Char) :
    parseDataList fuel (printPointsList pts ++ (']' :: X)) = some (pts, ']' :: X) := by
  rcases pts with _ | ⟨p, ps⟩
  · rfl
  · show parseDataList fuel ((printPoint p ++ printPointsRest ps) ++ (']' :: X)) = _
    rw [List.append_assoc]
    unfold parseDataList
    rw [if_neg (by rw [headIsCloseBracket_printPoint]; exact Bool.false_ne_true)]
    rw [show printPoint p ++ (printPointsRest ps ++ (']' :: X))
        = printPointsList (p :: ps) ++ (']' :: X) from by
      simp [printPointsList, List.append_assoc]]
    exact parsePointsAux_print (p :: ps) (by simp) hp (']' :: X) rfl fuel hfuel

theorem parseChartType_print (ty : ChartType) (X : List Char) :
    parseChartType (chartTypeChars ty ++ X) = some (ty, X) := by
  cases ty <;> simp +decide [parseChartType, chartTypeChars, List.drop_left]

theorem chartSerializable_values (c : ChartData) (hc : chartSerializable c) :
    ∀ p ∈ c.data, ∀ q : ℚ, p.value = some q → q.den = 1 := by
  intro p hp q hq
  have h := (List.all_eq_true.mp hc.2.2.2) p hp
  rw [hq] at h
  simpa using h

theorem parseChart_print (c : ChartData) (hc : chartSerializable c) (rest : List Char)
    (fuel : Nat) (hfuel : c.data.length ≤ fuel) :
    parseChart fuel (printChart c ++ rest) = some (c, rest) := by
  have hv := chartSerializable_values c hc
  obtain ⟨hx, hy, hd, -⟩ := hc
  obtain ⟨xs, hxs⟩ := Option.isSome_iff_exists.mp hx
  obtain ⟨ys, hys⟩ := Option.isSome_iff_exists.mp hy
  obtain ⟨des, hdes⟩ := Option.isSome_iff_exists.mp hd
  unfold parseChart printChart parseOptStr
  rw [hxs, hys, hdes]
  simp only [printOptStr]
  simp only [List.append_assoc, List.cons_append, List.nil_append]
  simp only [expects_cons_step, expects_nil]
  rw [parseChartType_print]
  dsimp only
  simp only [expects_cons_step, expects_nil]
  rw [parseStrAux_escape]
  dsimp only
  simp only [expects_cons_step, expects_nil]
  rw [parseStrAux_escape]
  dsimp only
  simp only [expects_cons_step, expects_nil]
  rw [parseStrAux_escape]
  dsimp only
  simp only [expects_cons_step, expects_nil]
  rw [parseStrAux_escape]
  dsimp only
  simp only [expects_cons_step, expects_nil]
  rw [parseDataList_print c.data hv fuel hfuel]
  dsimp only
  simp only [expects_cons_step, expects_nil]
  rw [← hxs, ← hys, ← hdes]

theorem printPoint_length_pos (p : ChartPoint) : 1 ≤ (printPoint p).length := by
  simp only [printPoint, List.length_append, List.length_cons, List.length_nil]
  omega

theorem printPointsRest_length (ps : List ChartPoint) :
    ps.length ≤ (printPointsRest ps).length := by
  induction ps with
  | nil => simp [printPointsRest]
  | cons p ps ih =>
    simp only [printPointsRest, List.length_cons, List.length_append]
    omega

theorem printPointsList_length (ps : List ChartPoint) :
    ps.length ≤ (printPointsList ps).length := by
  rcases ps with _ | ⟨p, ps⟩
  · simp [printPointsList]
  · have h1 := printPoint_length_pos p
    have h2 := printPointsRest_length ps
    simp only [printPointsList, List.length_cons, List.length_append]
    omega

theorem printChart_length (c : ChartData) :
    c.data.length + 1 ≤ (printChart c).length := by
  have h := printPointsList_length c.data
  simp only [printChart, List.length_append, List.length_cons, List.length_nil]
  omega

theorem printChartsRest_length (cs : List ChartData) :
    cs.length + (cs.map (fun c => c.data.length)).sum ≤ (printChartsRest cs).length := by
  induction cs with
  | nil => simp [printChartsRest]
  | cons c cs ih =>
    have h := printChart_length c
    simp only [printChartsRest, List.length_cons, List.length_append, List.map_cons,
      List.sum_cons]
    omega

theorem printChartsList_length (cs : List ChartData) :
    cs.length + (cs.map (fun c => c.data.length)).sum ≤ (printChartsList cs).length := by
  rcases cs with _ | ⟨c, cs⟩
  · simp [printChartsList]
  · have h1 := printChart_length c
    have h2 := printChartsRest_length cs
    simp only [printChartsList, List.length_cons, List.length_append, List.map_cons,
      List.sum_cons]
    omega

theorem parseChartsAux_print : ∀ cs : List ChartData, cs ≠ [] →
    (∀ c ∈ cs, chartSerializable c) →
    ∀ rest : List Char, headIsComma rest = false → ∀ fuel : Nat,
    cs.length + (cs.map (fun c => c.data.length)).sum ≤ fuel →
    parseChartsAux fuel (printChartsList cs ++ rest) = some (cs, rest) := by
  intro cs
  induction cs with
  | nil => intro h; exact absurd rfl h
  | cons c cs ih =>
    intro _ hc rest hrest fuel hfuel
    rcases fuel with _ | fuel
    · simp at hfuel
    show parseChartsAux (fuel + 1) ((printChart c ++ printChartsRest cs) ++ rest) = _
    rw [List.append_assoc]
    conv_lhs => rw [parseChartsAux]
    rw [parseChart_print c (hc c (by simp)) _ (fuel + 1) (by
      simp only [List.length_cons, List.map_cons, List.sum_cons] at hfuel
      omega)]
    dsimp only
    rcases cs with _ | ⟨c2, cs2⟩
    · simp only [printChartsRest, List.nil_append]
      split
      · simp [headIsComma] at hrest
      · rfl
    · simp only [printChartsRest, List.cons_append]
      rw [show printChart c2 ++ printChartsRest cs2 ++ rest
          = printChartsList (c2 :: cs2) ++ rest from rfl]
      rw [ih (by simp) (fun x hx => hc x (by simp [hx])) rest hrest fuel (by
        simp only [List.length_cons, List.map_cons, List.sum_cons] at hfuel ⊢
        omega)]

/-- The canonical parser inverts the canonical printer on serializable
chart lists. -/
theorem chartListFromJson_toJson (cds : List ChartData)
    (h : ∀ c ∈ cds, chartSerializable c) :
    chartListFromJson (chartListToJson cds) = some cds := by
  unfold chartListFromJson chartListToJson
  rcases cds with _ | ⟨c, cs⟩
  · rfl
  · have hdata : (String.mk ([('[' : Char)] ++ printChartsList (c :: cs) ++ [(']' : Char)])).data
        = '[' :: (printChartsList (c :: cs) ++ [(']' : Char)]) := by
      show ([('[' : Char)] ++ printChartsList (c :: cs) ++ [(']' : Char)])
          = '[' :: (printChartsList (c :: cs) ++ [(']' : Char)])
      simp
    rw [hdata]
    dsimp only
    rw [if_pos rfl]
    have hlen := printChartsList_length (c :: cs)
    rw [if_neg (by
      intro heq
      have hl := congrArg List.length heq
      simp only [List.length_append, List.length_cons, List.length_nil] at hl
      simp only [List.length_cons, List.map_cons, List.sum_cons] at hlen
      omega)]
    rw [parseChartsAux_print (c :: cs) (by simp) h [(']' : Char)] rfl _ (by
      simp only [List.length_cons, List.map_cons, List.sum_cons] at hlen ⊢
      simp only [List.length_append, List.length_cons, List.length_nil]
      omega)]
    dsimp only
    rw [if_pos rfl]

/-- The client-side decode of a streamed text: extract between the
underscore markers and `JSON.parse` the payload. -/
def chartRoundTripDecode (s : String) : Option (List ChartData) :=
  (clientExtractChartData s).bind chartListFromJson

/-- A well-behaved chart as the extractor produces it. -/
def chartW : ChartData :=
  ⟨.bar, "balance by account_name", some ("account_name"), some ("balance"),
   some ("Distribution of balance across different account_name values"),
   [⟨("Checking"), some 1000⟩, ⟨("Savings"), some 2500⟩, ⟨("Credit"), some 300⟩]⟩

/-- A chart whose title contains the end marker itself. -/
def badChart : ChartData :=
  ⟨.bar, "__CHART_DATA_END__", some ("x"), some ("y"), some ("d"), [⟨("a"), some 1⟩]⟩

set_option maxRecDepth 40000 in
/-- Claim C6 counterexample, two independent failures of the round trip as
claimed for every `ChartData[]` and prose: (1) with the client's own
matching marker pair, a chart list whose serialized JSON contains the end
marker decodes to nothing, because extraction stops at the first end
marker, inside the JSON; (2) the analyst encoder (part_006 line 640) uses
bare `CHART_DATA_START`/`CHART_DATA_END` markers, so the client decoder,
which matches the underscored markers, recovers nothing from its output
even for a perfectly well-behaved chart list. -/
theorem chart_roundtrip_counterexample :
    chartRoundTripDecode (encodeWithMarkers streamStartMarker streamEndMarker
        ("Analysis complete.") (chartListToJson [badChart])) = none
    ∧ chartRoundTripDecode (analystAppendChartData ("Analysis complete.")
        (chartListToJson [chartW])) = none := by
  constructor
  · decide
  · decide

/-- Claim C6 amended: with one matching marker pair on both sides (the
underscored pair of the document handler and the client), and provided the
start marker occurs exactly once in the encoded text and the end marker
occurs exactly once in payload-plus-end-marker (i.e. neither the prose nor
the serialized JSON collides with a marker), decoding an encoded nonempty
`ChartData[]` reproduces it with structural equality.  `JSON.stringify` /
`JSON.parse` are modelled canonically; chart values are required to be
integral because number formatting is host float behaviour, and the
optional chart fields present, as in every chart the extractor builds. -/
theorem chart_roundtrip (cds : List ChartData) (prose : String)
    (hne : cds ≠ [])
    (hser : ∀ c ∈ cds, chartSerializable c)
    (h1 : countSubStr streamStartMarker
        (encodeWithMarkers streamStartMarker streamEndMarker prose (chartListToJson cds)) = 1)
    (h2 : countSubStr streamEndMarker (chartListToJson cds ++ streamEndMarker) = 1) :
    chartRoundTripDecode
        (encodeWithMarkers streamStartMarker streamEndMarker prose (chartListToJson cds))
      = some cds := by
  unfold chartRoundTripDecode clientExtractChartData
  rw [extractPayload_encode streamStartMarker streamEndMarker prose (chartListToJson cds)
    (by decide) (by decide) h1 h2]
  dsimp only [Option.bind]
  exact chartListFromJson_toJson cds hser

set_option maxRecDepth 40000 in
/-- Witness for the amended C6 at a concrete one-chart list and prose. -/
theorem chart_roundtrip_witness :
    chartRoundTripDecode (encodeWithMarkers streamStartMarker streamEndMarker
        ("Here are the results.") (chartListToJson [chartW])) = some [chartW] :=
  chart_roundtrip [chartW] ("Here are the results.")
    (by decide) (by decide) (by decide) (by decide)
